import Mathlib

/-!
Verification development for the BoothLibraryHelper core pipeline
(app/utils.py, app/storage.py, app/db.py), shallowly embedded in Lean.

Modelling conventions:
* Python strings are Lean `String`; character-level operations
  (`.strip()`, `.lower()`, `in`, `.startswith`, `.endswith`, splitting
  into lines) are implemented explicitly over `List Char` so that they
  are executable and easy to reason about.  Python's Unicode whitespace
  and digit classes are modelled by `Char.isWhitespace` / `Char.isDigit`
  (the inputs relevant to the claims are ASCII).
* JSON dictionaries read from disk are modelled by record types whose
  fields are `Option`-valued: `none` stands for "key absent or value not
  of the expected type" (exactly the cases the code's `isinstance`
  checks and `or`-defaults collapse together).
* Wall-clock time is an `Int` number of seconds (`datetime.utcnow()`
  becomes a `now : Int` parameter); a stored `fetched_at` value is
  either `parsed t` (the string parses to time `t`) or `unparsable`.
* The network is a pure map from URL to response; effects (HTTP GETs,
  cache-file writes) are recorded in an explicit effect log.
-/

/-! ### Character / string helpers (Python string primitives) -/

/-- Python `str.strip()` on a character list: drop whitespace from both ends. -/
def stripChars (cs : List Char) : List Char :=
  ((cs.dropWhile Char.isWhitespace).reverse.dropWhile Char.isWhitespace).reverse

/-- Python `str.strip()`. -/
def pyStrip (s : String) : String := ⟨stripChars s.data⟩

/-- Python `str.lower()` (ASCII-adequate). -/
def pyLower (s : String) : String := ⟨s.data.map Char.toLower⟩

/-- Does `p` occur at the head of `l`? -/
def headMatches : List Char → List Char → Bool
  | [], _ => true
  | _ :: _, [] => false
  | a :: as, b :: bs => a == b && headMatches as bs

/-- Python `str.startswith`. -/
def startsWithS (s pat : String) : Bool := headMatches pat.data s.data

/-- Python `str.endswith`. -/
def endsWithS (s pat : String) : Bool := headMatches pat.data.reverse s.data.reverse

/-- Auxiliary for substring search: does `pat` occur anywhere in the list? -/
def containsAux (pat : List Char) : List Char → Bool
  | [] => headMatches pat []
  | c :: rest => headMatches pat (c :: rest) || containsAux pat rest

/-- Python `pat in s` (substring containment). -/
def containsSub (s pat : String) : Bool := containsAux pat.data s.data

/-- Python `str.splitlines` (adequate for the claims: splits on CR/LF;
    downstream code strips and drops empty lines, so boundary behaviour
    on trailing newlines is immaterial). -/
def splitLinesAux : List Char → List Char → List String
  | [], cur => [⟨cur.reverse⟩]
  | c :: rest, cur =>
    if c == '\n' || c == '\r' then ⟨cur.reverse⟩ :: splitLinesAux rest []
    else splitLinesAux rest (c :: cur)

def splitLines (s : String) : List String := splitLinesAux s.data []

/-! ### ProductIdExtractor (utils.py lines 35-44) -/

/-- `extract_product_id` (utils.py:35): `re.match(r"\[(\d+)\]", folder_name)`,
    i.e. the name must begin with a bracketed nonempty digit run. -/
def extract_product_id (folder_name : String) : Option String :=
  match folder_name.data with
  | '[' :: rest =>
    let ds := rest.takeWhile Char.isDigit
    if ds.isEmpty then none
    else if (rest.drop ds.length).head? == some ']' then some ⟨ds⟩
    else none
  | _ => none

/-- `build_public_item_url` (utils.py:43). -/
def build_public_item_url (product_id : String) : String :=
  "https://booth.pm/ja/items/" ++ product_id

/-! ### URL normalization (utils.py lines 357-400) -/

/-- `re.search(r"/items/(\d+)", u)` at one position: the literal
    `"/items/"` followed by a maximal nonempty digit run. -/
def digitsAfterItems (l : List Char) : Option (List Char) :=
  if headMatches "/items/".data l then
    if ((l.drop 7).takeWhile Char.isDigit).isEmpty then none
    else some ((l.drop 7).takeWhile Char.isDigit)
  else none

/-- Leftmost match of `re.search(r"/items/(\d+)", _)`. -/
def searchAux : List Char → Option (List Char)
  | [] => none
  | c :: rest =>
    match digitsAfterItems (c :: rest) with
    | some ds => some ds
    | none => searchAux rest

/-- The captured digit group of `re.search(r"/items/(\d+)", u)`. -/
def searchItemsId (s : String) : Option String := (searchAux s.data).map (⟨·⟩)

/-- The protocol-prefixing steps of `_normalize_item_url` (utils.py:364-368)
    applied after stripping. -/
def urlPrefixSteps (u : String) : String :=
  let u := if startsWithS u "//" then "https:" ++ u else u
  if startsWithS u "/" then "https://booth.pm" ++ u else u

/-- `_normalize_item_url` (utils.py:357). -/
def normalizeItemUrl (url : String) : Option String :=
  if pyStrip url == "" then none
  else if !(startsWithS (urlPrefixSteps (pyStrip url)) "http://" ||
            startsWithS (urlPrefixSteps (pyStrip url)) "https://") then none
  else
    match searchItemsId (urlPrefixSteps (pyStrip url)) with
    | none => none
    | some pid => some (build_public_item_url pid)

/-! ### Purchase-URL extraction (utils.py lines 327-500) -/

/-- An attribute list as delivered by `html.parser` (`attrs`): names with
    optional values; `dict(attrs)` keeps the last occurrence of a key.
    `none` results cover both "key absent" and "value is None". -/
def dictGet (attrs : List (String × Option String)) (k : String) : Option String :=
  ((attrs.filter (fun p => p.1 == k)).getLast?).bind (·.2)

/-- Events delivered by `html.parser` to a parser subclass. -/
inductive HtmlEvent
  | startTag (tag : String) (attrs : List (String × Option String))
  | endTag (tag : String)
  | textData (text : String)
deriving DecidableEq

/-- State of `PurchaseHTMLParser` (utils.py:327). -/
structure PState where
  urls : List String := []
  in_a : Bool := false
  href : String := ""
deriving DecidableEq

/-- One event step of `PurchaseHTMLParser`. -/
def pStep (st : PState) : HtmlEvent → PState
  | .startTag tag attrs =>
    if tag == "a" then
      match dictGet attrs "href" with
      | some h => if h == "" then st else { st with in_a := true, href := h }
      | none => st
    else st
  | .endTag tag =>
    if tag == "a" then { st with in_a := false, href := "" } else st
  | .textData _ =>
    if st.in_a && st.href != "" then
      let h := pyStrip st.href
      if containsSub h "/items/" then { st with urls := st.urls ++ [h] } else st
    else st

/-- `_extract_urls_from_html` (utils.py:392), over the event view of the
    input text (plain text without tags yields only `textData` events). -/
def extractUrlsFromHtml (events : List HtmlEvent) : List String :=
  ((events.foldl pStep {}).urls).filterMap normalizeItemUrl

/-- `_extract_urls_from_text` (utils.py:380). -/
def extractUrlsFromText (pasted_text : String) : List String :=
  (splitLines pasted_text).filterMap fun line =>
    let l := pyStrip line
    if l == "" then none else normalizeItemUrl l

/-- First-seen-order deduplication (utils.py:470-476). -/
def dedupKeepFirst (l : List String) : List String :=
  l.foldl (fun acc u => if acc.contains u then acc else acc ++ [u]) []

/-- One entry of the written purchase file: `{product_id, product_url}`. -/
structure PurchaseOutItem where
  product_id : String
  product_url : String
deriving DecidableEq

/-- The item-list construction of `build_purchase_json_from_urls_and_html`
    (utils.py:460-500), without the optional existing-folder filter (the
    claims exercise `filter_root_folder=None`): text-extracted URLs, then
    HTML-extracted URLs, deduplicated, then one record per URL. -/
def buildPurchaseItems (pasted_text : String) (events : List HtmlEvent) :
    List PurchaseOutItem × Nat :=
  let urls := extractUrlsFromText pasted_text ++ extractUrlsFromHtml events
  let uniq := dedupKeepFirst urls
  let items := uniq.filterMap fun u =>
    (searchItemsId u).map fun pid => ⟨pid, u⟩
  (items, uniq.length)

/-! ### ThumbnailCache data model (utils.py lines 75-258) -/

/-- A stored `fetched_at` JSON value, as seen through `_parse_utc_iso`
    (utils.py:127): either it parses to an integral UTC second count or
    it does not (missing keys are `Option.none` one level up). -/
inductive TimeVal
  | parsed (t : Int)
  | unparsable
deriving DecidableEq

/-- A parsed `meta.json` dictionary, projected onto the keys the code
    reads (utils.py:146,165,171-175,188).  `none` fields stand for
    "absent or not a string". -/
structure MDict where
  product_id : Option String := none
  product_url : Option String := none
  official_title : Option String := none
  og_image_url : Option String := none
  image_rel : Option String := none
  fetched_at : Option TimeVal := none
deriving DecidableEq

/-- Per-item cache directory state: `[item]/.thumbnail_cache/`.
    `images` lists the extensions `e` for which `booth<e>` exists;
    `metaFile = none` means `meta.json` is absent, `some none` that it
    exists but does not parse as a JSON dict, `some (some m)` that it
    parses to `m`. -/
structure CacheState where
  dirExists : Bool := false
  images : List String := []
  metaFile : Option (Option MDict) := none
deriving DecidableEq

/-- The extension probe order of utils.py:109. -/
def EXTS : List String := [".png", ".jpg", ".jpeg", ".webp"]

/-- Existing-thumbnail detection (utils.py:107-114): first extension in
    probe order whose `booth<ext>` file exists. -/
def firstExistingExt (images : List String) : Option String :=
  EXTS.find? (fun e => images.contains e)

/-- `_is_fresh` (utils.py:139): fresh iff not forcing, positive TTL, the
    meta record is a dict, its `fetched_at` parses, and the age is
    strictly below the TTL. -/
def is_fresh (force_refresh : Bool) (ttl_sec : Int) (meta : Option MDict)
    (now : Int) : Bool :=
  if force_refresh then false
  else if ttl_sec ≤ 0 then false
  else
    match meta with
    | none => false
    | some m =>
      match m.fetched_at with
      | some (.parsed dt) => now - dt < ttl_sec
      | _ => false

/-! ### Network model -/

/-- Outcome of `requests.get` on the item page: `fail` covers raised
    exceptions (timeout, DNS, connection); `resp` carries the status
    (`raise_for_status` turns status ≥ 400 into the exception path) and
    the start-tag event view of the body as fed to `BoothMetaParser`. -/
inductive PageResult
  | fail
  | resp (status : Nat) (body : List (String × List (String × Option String)))

/-- Outcome of the image GET: `fail` covers exceptions and error
    statuses; `ok` carries the `Content-Type` header if present. -/
inductive ImgResult
  | fail
  | ok (contentType : Option String)

/-- The pure network environment: URL-indexed responses. -/
structure Network where
  page : String → PageResult
  image : String → ImgResult

/-- Effect log entries: the two kinds of HTTP GET the core can issue,
    plus cache/index mutations (`fsMkdir` is recorded only when
    `os.makedirs` actually creates the directory; with `exist_ok=True`
    an existing directory is left untouched). -/
inductive Eff
  | netPage (url : String)
  | netImage (url : String)
  | fsMkdir
  | fsWriteMeta
  | fsWriteImage (ext : String)
  | fsRemoveImage (ext : String)
  | fsWriteIndex
deriving DecidableEq

/-- Is an effect an outbound network request? -/
def Eff.isNet : Eff → Bool
  | .netPage _ => true
  | .netImage _ => true
  | _ => false

/-! ### PublicMetadataFetcher (utils.py lines 18-72) -/

/-- State of `BoothMetaParser` (utils.py:18). -/
structure BoothMeta where
  og_image : Option String := none
  og_title : Option String := none
deriving DecidableEq

/-- `BoothMetaParser.handle_starttag` (utils.py:24): on a `meta` tag,
    capture the `content` attribute for `og:image` / `og:title`
    (later occurrences overwrite earlier ones, even with a missing
    `content`). -/
def boothMetaStep (st : BoothMeta)
    (ev : String × List (String × Option String)) : BoothMeta :=
  if ev.1 == "meta" then
    let prop := dictGet ev.2 "property"
    if prop == some "og:image" then { st with og_image := dictGet ev.2 "content" }
    else if prop == some "og:title" then { st with og_title := dictGet ev.2 "content" }
    else st
  else st

def parseBoothMeta (body : List (String × List (String × Option String))) :
    BoothMeta :=
  body.foldl boothMetaStep {}

/-- Python truthiness of an optional string (`None` and `""` are falsy). -/
def truthyS : Option String → Bool
  | none => false
  | some s => s != ""

/-- `fetch_public_item_meta` (utils.py:47): one GET to the canonical
    public item page; `none` on any exception (network failure or
    `raise_for_status`); otherwise a dict always carrying `product_url`
    and carrying `official_title` / `og_image_url` only when the
    corresponding og attribute was captured truthy. -/
def fetch_public_item_meta (net : Network) (product_id : String) :
    Option MDict × List Eff :=
  match net.page (build_public_item_url product_id) with
  | .fail => (none, [.netPage (build_public_item_url product_id)])
  | .resp status body =>
    if 400 ≤ status then (none, [.netPage (build_public_item_url product_id)])
    else
      (some { product_url := some (build_public_item_url product_id),
              official_title :=
                if truthyS (parseBoothMeta body).og_title then
                  (parseBoothMeta body).og_title
                else none,
              og_image_url :=
                if truthyS (parseBoothMeta body).og_image then
                  (parseBoothMeta body).og_image
                else none },
       [.netPage (build_public_item_url product_id)])

/-! ### ThumbnailCache: `fetch_and_cache_thumbnail` (utils.py:75-258) -/

/-- Result of `fetch_and_cache_thumbnail`: the returned pair, the new
    cache-directory state, and the effect log. -/
structure FetchRes where
  thumb : Option String
  meta : Option MDict
  cache : CacheState
  log : List Eff
deriving DecidableEq

/-- The extension decision of utils.py:209-229: from the URL suffix,
    else from the content type (jpeg normalized to jpg, default jpg). -/
def decideExt (og_image_url : String) (contentType : Option String) : String :=
  let url_lower := pyLower og_image_url
  let ext0 :=
    match EXTS.find? (fun c => endsWithS url_lower c) with
    | some c => c
    | none =>
      let ctype := pyLower (contentType.getD "")
      if containsSub ctype "png" then ".png"
      else if containsSub ctype "jpeg" || containsSub ctype "jpg" then ".jpg"
      else if containsSub ctype "webp" then ".webp"
      else ".jpg"
  if ext0 == ".jpeg" then ".jpg" else ext0

/-- `fetch_and_cache_thumbnail` (utils.py:75), parameterized by the item
    folder's basename, its cache state, the network, and the current
    time.  File writes always succeed in the model (the claims under
    verification concern network conditions only). -/
def fetch_and_cache_thumbnail (folderName : String) (cache0 : CacheState)
    (net : Network) (now : Int) (ttl_sec : Int) (force_refresh : Bool) :
    FetchRes :=
  match extract_product_id folderName with
  | none => ⟨none, none, cache0, []⟩                                -- utils.py:100
  | some pid =>
    let mkLog : List Eff := if cache0.dirExists then [] else [.fsMkdir]
    let cache : CacheState := { cache0 with dirExists := true }     -- utils.py:104
    let existingExt := firstExistingExt cache.images                -- utils.py:107
    let existing_rel := existingExt.map (fun e => ".thumbnail_cache/booth" ++ e)
    let existing_meta : Option MDict := cache.metaFile.bind id      -- utils.py:116
    if existing_rel.isSome && is_fresh force_refresh ttl_sec existing_meta now then
      ⟨existing_rel, existing_meta, cache, mkLog⟩                   -- utils.py:153
    else
      match fetch_public_item_meta net pid with
      | (none, plog) =>                                             -- utils.py:159
        if existing_rel.isSome then ⟨existing_rel, existing_meta, cache, mkLog ++ plog⟩
        else ⟨none, none, cache, mkLog ++ plog⟩
      | (some meta, plog) =>
        match meta.og_image_url with
        | none =>                                                   -- utils.py:167
          let meta_out : MDict :=
            { product_id := some pid,
              product_url := some (meta.product_url.getD ""),
              official_title := some (meta.official_title.getD ""),
              og_image_url := some "",
              image_rel := some (existing_rel.getD ""),
              fetched_at := some (.parsed now) }
          ⟨existing_rel, some meta,
           { cache with metaFile := some (some meta_out) },
           mkLog ++ plog ++ [.fsWriteMeta]⟩                         -- utils.py:181
        | some og_image_url =>
          -- `og_image_url` is truthy here by construction of the fetched meta.
          if !force_refresh && existing_rel.isSome &&
              (match existing_meta with
               | some em => pyStrip (em.og_image_url.getD "") == pyStrip og_image_url
               | none => false) then
            let meta_out : MDict :=                                 -- utils.py:184-203
              { product_id := some pid,
                product_url := some (meta.product_url.getD ""),
                official_title := some (meta.official_title.getD ""),
                og_image_url := some og_image_url,
                image_rel := existing_rel,
                fetched_at := some (.parsed now) }
            ⟨existing_rel, some meta_out,
             { cache with metaFile := some (some meta_out) },
             mkLog ++ plog ++ [.fsWriteMeta]⟩
          else
            match net.image og_image_url with
            | .fail =>                                              -- utils.py:256-258
              ⟨existing_rel, some meta, cache, mkLog ++ plog ++ [.netImage og_image_url]⟩
            | .ok contentType =>
              let ext := decideExt og_image_url contentType
              let image_rel := ".thumbnail_cache/booth" ++ ext
              let removed :=                                        -- utils.py:234-239
                match existingExt with
                | some e => if e != ext then [Eff.fsRemoveImage e] else []
                | none => []
              let images1 :=
                match existingExt with
                | some e => if e != ext then cache.images.erase e else cache.images
                | none => cache.images
              let images2 := if images1.contains ext then images1 else images1 ++ [ext]
              let meta_out : MDict :=                               -- utils.py:244-251
                { product_id := some pid,
                  product_url := some (meta.product_url.getD ""),
                  official_title := some (meta.official_title.getD ""),
                  og_image_url := some og_image_url,
                  image_rel := some image_rel,
                  fetched_at := some (.parsed now) }
              ⟨some image_rel, some meta_out,
               { cache with images := images2, metaFile := some (some meta_out) },
               mkLog ++ plog ++ [.netImage og_image_url] ++ removed ++
                 [.fsWriteImage ext, .fsWriteMeta]⟩

/-! ### CatalogIndex data model (storage.py, utils.py:307-321) -/

/-- The `files` sub-dictionary produced by `scan_files_two_level`
    (utils.py:286): note that it does include the `images` name list,
    which replaces the three-list initial value wholesale
    (storage.py:78). -/
structure FilesV where
  archives : List String := []
  documents : List String := []
  sources : List String := []
  images : List String := []
deriving DecidableEq

/-- The `stats` sub-dictionary (utils.py:297). -/
structure StatsV where
  archive_count : Nat := 0
  document_count : Nat := 0
  source_count : Nat := 0
  image_count : Nat := 0
deriving DecidableEq

/-- One persisted catalog item record.  Fields read back with
    `isinstance(..., str)` checks are `Option String` (`none` = key
    absent or value not a string); `product_id` and `title` are read
    through `str(...)` coercions in `apply_purchase_import_json`, so
    they are plain strings (the `str()` image). -/
structure Rec where
  title : String := ""
  path : Option String := none
  product_id : String := ""
  product_url : Option String := none
  official_title : String := ""
  purchase_title : Option String := none
  purchased_at : Option String := none
  files : FilesV := {}
  stats : StatsV := {}
  thumbnail : Option String := none
deriving DecidableEq

/-- The state of a root's `metadata.json` as the code distinguishes it:
    `absent` covers a missing file and unparsable JSON (both make
    `read_metadata_json` return `{"items": []}`, utils.py:307-315);
    `badItems` covers a parsed document whose `"items"` key is missing
    or not a list (or a falsy document); `items l` the normal case. -/
inductive IndexFile
  | absent
  | badItems
  | items (l : List Rec)
deriving DecidableEq

/-! ### FolderScanner (utils.py lines 264-304) -/

def ARCHIVE_EXTS : List String := [".zip", ".unitypackage"]
def DOCUMENT_EXTS : List String := [".pdf", ".txt", ".md"]
def SOURCE_EXTS : List String := [".psd"]
def IMAGE_EXTS : List String := [".png", ".jpg", ".jpeg", ".webp"]

/-- `os.path.splitext(name)[1].lower()`: the extension is the suffix
    from the last dot, provided some earlier character of the name is
    not a dot (so dotfiles have no extension). -/
def splitextExt (name : String) : String :=
  let cs := name.data
  let rev := cs.reverse
  let afterDot := rev.takeWhile (fun c => c != '.')
  if afterDot.length == rev.length then ""            -- no dot at all
  else
    let stem := cs.take (cs.length - afterDot.length - 1)
    if stem.all (fun c => c == '.') then ""           -- only leading dots
    else pyLower ⟨'.' :: afterDot.reverse⟩

/-- `_scan_single_dir` (utils.py:264): classify the files of one
    directory by extension into the accumulated buckets. -/
def classifyInto (files : List String) (acc : FilesV) : FilesV :=
  files.foldl
    (fun acc name =>
      let ext := splitextExt name
      if ARCHIVE_EXTS.contains ext then { acc with archives := acc.archives ++ [name] }
      else if DOCUMENT_EXTS.contains ext then
        { acc with documents := acc.documents ++ [name] }
      else if SOURCE_EXTS.contains ext then { acc with sources := acc.sources ++ [name] }
      else if IMAGE_EXTS.contains ext then { acc with images := acc.images ++ [name] }
      else acc)
    acc

/-- Filesystem state of one item folder.  The cache directory is an
    immediate subdirectory named `.thumbnail_cache`; it is modelled
    separately in `cache` and rendered into the directory listing by
    `itemSubdirs` (directory-listing order is not a stable contract per
    the spec, so the cache directory is listed after the others). -/
structure ItemFS where
  directFiles : List String := []
  subdirs : List (String × List String) := []
  cache : CacheState := {}
deriving DecidableEq

/-- File names visible inside the cache directory. -/
def cacheFiles (c : CacheState) : List String :=
  (c.images.map (fun e => "booth" ++ e)) ++
    (if c.metaFile.isSome then ["meta.json"] else [])

/-- Immediate subdirectories of the item folder as `os.scandir` sees
    them, including the cache directory when it exists. -/
def itemSubdirs (fs : ItemFS) : List (String × List String) :=
  fs.subdirs ++ (if fs.cache.dirExists then [(".thumbnail_cache", cacheFiles fs.cache)] else [])

/-- `scan_files_two_level` (utils.py:282): direct files plus the files
    of each immediate subdirectory. -/
def scan_files_two_level (fs : ItemFS) : FilesV :=
  (itemSubdirs fs).foldl (fun acc sd => classifyInto sd.2 acc)
    (classifyInto fs.directFiles {})

def statsOf (f : FilesV) : StatsV :=
  { archive_count := f.archives.length, document_count := f.documents.length,
    source_count := f.sources.length, image_count := f.images.length }

/-! ### CatalogIndex scan (storage.py lines 20-132) -/

/-- One entry of `os.listdir(root)`: a plain file (skipped by the
    `os.path.isdir` check) or an item directory. -/
inductive RootEntry
  | file (name : String)
  | dir (name : String) (fs : ItemFS)
deriving DecidableEq

/-- A library root: its directory entries and its `metadata.json`. -/
structure RootFS where
  entries : List RootEntry := []
  metaFile : IndexFile := .absent
deriving DecidableEq

/-- The `prev_map` lookup of storage.py:31-36,70: the last prior item
    whose `path` is the (nonempty) string `p`. -/
def prevMapGet (items : List Rec) (p : String) : Option Rec :=
  if p == "" then none
  else (items.filter (fun it => it.path == some p)).getLast?

/-- Output of processing one item directory inside the scan loop. -/
structure ItemOut where
  record : Rec
  fs : ItemFS
  log : List Eff
deriving DecidableEq

/-- Sticky-field inheritance (storage.py:70-74): the stripped prior
    `purchase_title` when it is a string, else empty. -/
def inheritPT (p? : Option Rec) : String :=
  match p? with
  | some p => (p.purchase_title.map pyStrip).getD ""
  | none => ""

/-- Sticky-field inheritance (storage.py:70-75) for `purchased_at`. -/
def inheritPA (p? : Option Rec) : String :=
  match p? with
  | some p => (p.purchased_at.map pyStrip).getD ""
  | none => ""

/-- Thumbnail inheritance (storage.py:116-119): the stripped prior
    `thumbnail` when it is a string with nonempty strip, else empty. -/
def inheritTH (p? : Option Rec) : String :=
  match p? with
  | some p =>
    match p.thumbnail with
    | some t => if pyStrip t != "" then pyStrip t else ""
    | none => ""
  | none => ""

/-- Field updates from a returned meta dict (storage.py:97-103 and
    106-112): stripped `official_title` when a nonempty-stripping
    string, and the stripped `product_url` override when a
    nonempty-stripping string. -/
def metaTitleUrl (m : MDict) : String × Option String :=
  (match m.official_title with
   | some ot => if pyStrip ot != "" then pyStrip ot else ""
   | none => "",
   match m.product_url with
   | some pu => if pyStrip pu != "" then some (pyStrip pu) else none
   | none => none)

/-- The body of the scan loop for one item directory
    (storage.py:43-124). -/
def processItem (root : String) (net : Network) (now : Int) (ttl : Int)
    (force : Bool) (prevItems : List Rec) (name : String) (fs : ItemFS) :
    ItemOut :=
  match extract_product_id name with                                -- storage.py:81
  | none =>
    ⟨{ title := name, path := some (root ++ "/" ++ name), product_id := "",
       product_url := some "", official_title := "",
       purchase_title :=
         some (inheritPT (prevMapGet prevItems (root ++ "/" ++ name))),
       purchased_at :=
         some (inheritPA (prevMapGet prevItems (root ++ "/" ++ name))),
       files := scan_files_two_level fs,
       stats := statsOf (scan_files_two_level fs),
       thumbnail :=
         some (inheritTH (prevMapGet prevItems (root ++ "/" ++ name))) },
     fs, []⟩
  | some pid =>
    let fr := fetch_and_cache_thumbnail name fs.cache net now ttl force
    let thumb0 : String := match fr.thumb with
      | some t => if t != "" then t else ""
      | none => ""
    -- official_title / product_url from the returned meta (storage.py:97-112),
    -- with a second page fetch when the cache returned no dict (storage.py:105).
    let metaFields : (String × Option String) × List Eff :=
      match fr.meta with
      | some m => (metaTitleUrl m, [])
      | none =>
        match fetch_public_item_meta net pid with
        | (some m2, l2) => (metaTitleUrl m2, l2)
        | (none, l2) => (("", none), l2)
    ⟨{ title := name, path := some (root ++ "/" ++ name), product_id := pid,
       product_url := some (match metaFields.1.2 with
                            | some pu => pu
                            | none => build_public_item_url pid),   -- storage.py:84
       official_title := metaFields.1.1,
       purchase_title :=
         some (inheritPT (prevMapGet prevItems (root ++ "/" ++ name))),
       purchased_at :=
         some (inheritPA (prevMapGet prevItems (root ++ "/" ++ name))),
       files := scan_files_two_level fs,
       stats := statsOf (scan_files_two_level fs),
       thumbnail :=
         some (if thumb0 == "" then                                 -- storage.py:116
                 inheritTH (prevMapGet prevItems (root ++ "/" ++ name))
               else thumb0) },
     { fs with cache := fr.cache }, fr.log ++ metaFields.2⟩

/-- Per-entry step of the scan loop (files are skipped untouched). -/
structure EntryStep where
  rec? : Option Rec
  entry : RootEntry
  log : List Eff
deriving DecidableEq

def stepEntry (root : String) (net : Network) (now : Int) (ttl : Int)
    (force : Bool) (prevItems : List Rec) : RootEntry → EntryStep
  | .file n => ⟨none, .file n, []⟩
  | .dir n fs =>
    let o := processItem root net now ttl force prevItems n fs
    ⟨some o.record, .dir n o.fs, o.log⟩

/-- Result of `scan_dl_folder`. -/
structure ScanOut where
  items : List Rec
  count : Nat
  archives : Nat
  documents : Nat
  fs : RootFS
  log : List Eff
deriving DecidableEq

/-- `scan_dl_folder` (storage.py:20).  The Python loop appends one item
    per directory entry and threads no other state between iterations
    (the shared HTTP session carries no observable state in the model),
    so it is rendered as a map over the entries followed by the final
    index write (storage.py:126). -/
def indexItems : IndexFile → List Rec
  | .items l => l
  | _ => []

def scan_dl_folder (root : String) (w : RootFS) (net : Network) (now : Int)
    (ttl : Int) (force : Bool) (diff : Bool) : ScanOut :=
  let prevItems : List Rec := if diff then indexItems w.metaFile else []
  let steps := w.entries.map (stepEntry root net now ttl force prevItems)
  let items := steps.filterMap (·.rec?)
  { items := items,
    count := items.length,
    archives := (items.map (fun r => r.stats.archive_count)).sum,
    documents := (items.map (fun r => r.stats.document_count)).sum,
    fs := { entries := steps.map (·.entry), metaFile := .items items },
    log := (steps.map (·.log)).flatten ++ [.fsWriteIndex] }

/-! ### PurchaseImportMerger: apply (utils.py lines 561-629) -/

/-- One record of the purchase-import file's `items` list, projected on
    the keys `apply_purchase_import_json` reads.  `product_id` is read
    through `str(...)`, hence a plain string. -/
structure PurRec where
  product_id : String := ""
  product_url : Option String := none
  purchase_title : Option String := none
  official_title : Option String := none
  purchased_at : Option String := none
deriving DecidableEq

/-- The purchase-import file as the code distinguishes it:
    `unparsable` = `json.load` raised (utils.py:566-570); `itemsNotList`
    = parsed but `items` is not a list (utils.py:572-574); `items l`
    with `none` elements for non-dict entries (utils.py:578). -/
inductive PurchaseFile
  | unparsable
  | itemsNotList
  | items (l : List (Option PurRec))
deriving DecidableEq

/-- Build `src_map` (utils.py:576-583): keyed by stripped product id,
    skipping non-dicts and empty ids, later entries replacing earlier
    ones (dict assignment). -/
def buildSrcMap (l : List (Option PurRec)) : List (String × PurRec) :=
  l.foldl
    (fun m it =>
      match it with
      | none => m
      | some r =>
        let pid := pyStrip r.product_id
        if pid == "" then m
        else if m.any (fun p => p.1 == pid) then
          m.map (fun p => if p.1 == pid then (pid, r) else p)
        else m ++ [(pid, r)])
    []

def lookupSrc (m : List (String × PurRec)) (pid : String) : Option PurRec :=
  (m.find? (fun p => p.1 == pid)).map (·.2)

/-- Result of `apply_purchase_import_json`: the counts, the resulting
    index-file state, and whether the index was rewritten. -/
structure ApplyOut where
  total : Nat
  matched : Nat
  updated : Nat
  index : IndexFile
  wrote : Bool
deriving DecidableEq

/-- The per-item merge step (utils.py:589-626).  Returns the updated
    record, whether it matched, and whether any field changed. -/
def applyToRec (src_map : List (String × PurRec)) (it : Rec) :
    Rec × Bool × Bool :=
  let pid0 := pyStrip it.product_id
  let pid1 := if pyLower pid0 == "none" then "" else pid0
  let pid := if pid1 == "" then (extract_product_id it.title).getD "" else pid1
  if pid == "" then (it, false, false)
  else
    match lookupSrc src_map pid with
    | none => (it, false, false)
    | some src =>
      let (it, c1) :=
        match src.product_url with                                  -- utils.py:606
        | some pu =>
          if pyStrip pu != "" then
            if it.product_url != some (pyStrip pu) then
              ({ it with product_url := some (pyStrip pu) }, true)
            else (it, false)
          else (it, false)
        | none => (it, false)
      let pt : Option String :=                                     -- utils.py:613
        match src.purchase_title with
        | some s => if s != "" then some s else src.official_title
        | none => src.official_title
      let (it, c2) :=
        match pt with
        | some s =>
          if pyStrip s != "" then
            if it.purchase_title != some (pyStrip s) then
              ({ it with purchase_title := some (pyStrip s) }, true)
            else (it, false)
          else (it, false)
        | none => (it, false)
      let (it, c3) :=
        match src.purchased_at with                                 -- utils.py:619
        | some s =>
          if pyStrip s != "" then
            if it.purchased_at != some (pyStrip s) then
              ({ it with purchased_at := some (pyStrip s) }, true)
            else (it, false)
          else (it, false)
        | none => (it, false)
      (it, true, c1 || c2 || c3)

/-- `apply_purchase_import_json` (utils.py:561).  Note that a missing or
    unparsable `metadata.json` reads as `{"items": []}` and therefore
    passes the `isinstance(meta.get("items"), list)` guard with an empty
    item list, whereas a parsed document whose `items` is not a list
    aborts with zero counts and no write; an unparsable purchase file or
    a non-list `items` in it likewise aborts with zero counts and no
    write. -/
def apply_purchase_import_json (w : RootFS) (purchase : PurchaseFile) :
    ApplyOut :=
  match w.metaFile with
  | .badItems => ⟨0, 0, 0, w.metaFile, false⟩                       -- utils.py:563
  | mf =>
    let items0 : List Rec := match mf with | .items l => l | _ => []
    match purchase with
    | .unparsable => ⟨0, 0, 0, w.metaFile, false⟩                   -- utils.py:569
    | .itemsNotList => ⟨0, 0, 0, w.metaFile, false⟩                 -- utils.py:573
    | .items pl =>
      let src_map := buildSrcMap pl
      let total := src_map.length
      let outs := items0.map (applyToRec src_map)
      let newItems := outs.map (·.1)
      let matched := (outs.filter (fun o => o.2.1)).length
      let updated := (outs.filter (fun o => o.2.1 && o.2.2)).length
      ⟨total, matched, updated, .items newItems, true⟩              -- utils.py:628

/-! ### SHA-256 (hashlib.sha256, used by db.py:12-15)
32-bit words are `Nat` reduced mod `2^32`. -/

def M32lim : Nat := 4294967296

def w32 (n : Nat) : Nat := n % M32lim

def rotr32 (n x : Nat) : Nat := w32 ((x >>> n) ||| (x <<< (32 - n)))

def bigSigma0 (x : Nat) : Nat := rotr32 2 x ^^^ rotr32 13 x ^^^ rotr32 22 x
def bigSigma1 (x : Nat) : Nat := rotr32 6 x ^^^ rotr32 11 x ^^^ rotr32 25 x
def smallSigma0 (x : Nat) : Nat := rotr32 7 x ^^^ rotr32 18 x ^^^ (x >>> 3)
def smallSigma1 (x : Nat) : Nat := rotr32 17 x ^^^ rotr32 19 x ^^^ (x >>> 10)
def chOp (x y z : Nat) : Nat := (x &&& y) ^^^ ((x ^^^ (M32lim - 1)) &&& z)
def majOp (x y z : Nat) : Nat := (x &&& y) ^^^ (x &&& z) ^^^ (y &&& z)

def shaK : List Nat :=
  [1116352408, 1899447441, 3049323471, 3921009573, 961987163,
   1508970993, 2453635748, 2870763221, 3624381080, 310598401,
   607225278, 1426881987, 1925078388, 2162078206, 2614888103,
   3248222580, 3835390401, 4022224774, 264347078, 604807628,
   770255983, 1249150122, 1555081692, 1996064986, 2554220882,
   2821834349, 2952996808, 3210313671, 3336571891, 3584528711,
   113926993, 338241895, 666307205, 773529912, 1294757372,
   1396182291, 1695183700, 1986661051, 2177026350, 2456956037,
   2730485921, 2820302411, 3259730800, 3345764771, 3516065817,
   3600352804, 4094571909, 275423344, 430227734, 506948616,
   659060556, 883997877, 958139571, 1322822218, 1537002063,
   1747873779, 1955562222, 2024104815, 2227730452, 2361852424,
   2428436474, 2756734187, 3204031479, 3329325298]

/-- Big-endian byte rendering of `n` on `numBytes` bytes. -/
def toBE (numBytes n : Nat) : List Nat :=
  (List.range numBytes).map (fun i => (n >>> (8 * (numBytes - 1 - i))) % 256)

/-- SHA-256 message padding to a multiple of 64 bytes. -/
def padMsg (msg : List Nat) : List Nat :=
  let l := msg.length
  let padLen := (55 + 64 - (l % 64)) % 64
  msg ++ [128] ++ List.replicate padLen 0 ++ toBE 8 (8 * l)

/-- Big-endian 32-bit words from bytes. -/
def bytesToWords : List Nat → List Nat
  | b0 :: b1 :: b2 :: b3 :: rest => (((b0 * 256 + b1) * 256 + b2) * 256 + b3) :: bytesToWords rest
  | _ => []

/-- Extend a 16-word block to the 64-word message schedule. -/
def sched1 (w : List Nat) : List Nat :=
  let n := w.length
  let g := fun i => w.getD i 0
  w ++ [w32 (smallSigma1 (g (n - 2)) + g (n - 7) + smallSigma0 (g (n - 15)) + g (n - 16))]

def schedule (w : List Nat) : List Nat :=
  (List.range 48).foldl (fun acc _ => sched1 acc) w

structure H8 where
  a : Nat
  b : Nat
  c : Nat
  d : Nat
  e : Nat
  f : Nat
  g : Nat
  hh : Nat
deriving DecidableEq

def shaH0 : H8 :=
  ⟨1779033703, 3144134277, 1013904242,
   2773480762, 1359893119, 2600822924,
   528734635, 1541459225⟩

def compressStep (s : H8) (kw : Nat × Nat) : H8 :=
  let t1 := w32 (s.hh + bigSigma1 s.e + chOp s.e s.f s.g + kw.1 + kw.2)
  let t2 := w32 (bigSigma0 s.a + majOp s.a s.b s.c)
  ⟨w32 (t1 + t2), s.a, s.b, s.c, w32 (s.d + t1), s.e, s.f, s.g⟩

def compressBlock (h : H8) (blockWords : List Nat) : H8 :=
  let s := (shaK.zip (schedule blockWords)).foldl compressStep h
  ⟨w32 (h.a + s.a), w32 (h.b + s.b), w32 (h.c + s.c), w32 (h.d + s.d),
   w32 (h.e + s.e), w32 (h.f + s.f), w32 (h.g + s.g), w32 (h.hh + s.hh)⟩

/-- SHA-256 digest (32 bytes) of a byte list. -/
def sha256 (msg : List Nat) : List Nat :=
  let words := bytesToWords (padMsg msg)
  let nblocks := words.length / 16
  let hf := (List.range nblocks).foldl
    (fun h i => compressBlock h ((words.drop (16 * i)).take 16)) shaH0
  [hf.a, hf.b, hf.c, hf.d, hf.e, hf.f, hf.g, hf.hh].flatMap (toBE 4)

def hexChar (n : Nat) : Char := "0123456789abcdef".data.getD n '0'

def hexOfBytes (bs : List Nat) : String :=
  ⟨bs.flatMap (fun b => [hexChar (b / 16), hexChar (b % 16)])⟩

/-- UTF-8 encoding of one scalar value. -/
def utf8Char (n : Nat) : List Nat :=
  if n < 128 then [n]
  else if n < 2048 then [192 ||| (n >>> 6), 128 ||| (n &&& 63)]
  else if n < 65536 then
    [224 ||| (n >>> 12), 128 ||| ((n >>> 6) &&& 63), 128 ||| (n &&& 63)]
  else
    [240 ||| (n >>> 18), 128 ||| ((n >>> 12) &&& 63),
     128 ||| ((n >>> 6) &&& 63), 128 ||| (n &&& 63)]

def utf8Bytes (s : String) : List Nat := s.data.flatMap (fun c => utf8Char c.toNat)

/-- `compute_hash` (db.py:12): hex SHA-256 of `f"{title}|{url}|{thumb_url}"`. -/
def compute_hash (title url thumb_url : String) : String :=
  hexOfBytes (sha256 (utf8Bytes (title ++ "|" ++ url ++ "|" ++ thumb_url)))

/-! ### ChangeDetectionStore (db.py) -/

/-- One row of the `items` table (db.py:24-35), minus the primary key. -/
structure DbRow where
  title : String
  url : String
  thumb_url : String
  folder : String
  last_seen_ts : Int
  content_hash : String
  has_update : Bool
deriving DecidableEq

/-- The table: an association list keyed by `item_id` (primary key). -/
def DbState := List (String × DbRow)

def lookupRow (db : List (String × DbRow)) (item_id : String) : Option DbRow :=
  (db.find? (fun p => p.1 == item_id)).map (·.2)

/-- The `has_update` computation of `DB.upsert_item` (db.py:48-52):
    false with no prior row; otherwise true iff the stored hash differs
    from the newly computed one. -/
def upsertFlag (db : List (String × DbRow)) (item_id title url thumb_url : String) :
    Bool :=
  match lookupRow db item_id with
  | none => false
  | some r => r.content_hash != compute_hash title url thumb_url

/-- The full replacement row written by `DB.upsert_item` (db.py:54-66). -/
def upsertRow (db : List (String × DbRow)) (now : Int)
    (item_id title url thumb_url folder : String) : DbRow :=
  ⟨title, url, thumb_url, folder, now, compute_hash title url thumb_url,
   upsertFlag db item_id title url thumb_url⟩

/-- `DB.upsert_item` (db.py:38): compute the new hash; `has_update` is
    false with no prior row and otherwise true iff the stored hash
    differs; `INSERT OR REPLACE` the full row; return the flag. -/
def upsert_item (db : List (String × DbRow)) (now : Int)
    (item_id title url thumb_url folder : String) :
    Bool × List (String × DbRow) :=
  (upsertFlag db item_id title url thumb_url,
   if db.any (fun p => p.1 == item_id) then
     db.map (fun p =>
       if p.1 == item_id then
         (item_id, upsertRow db now item_id title url thumb_url folder)
       else p)
   else db ++ [(item_id, upsertRow db now item_id title url thumb_url folder)])

/-- `DB.clear_update_flag` (db.py:105): `UPDATE items SET has_update=0
    WHERE item_id=?`. -/
def clear_update_flag (db : List (String × DbRow)) (item_id : String) :
    List (String × DbRow) :=
  db.map (fun p =>
    if p.1 == item_id then (p.1, { p.2 with has_update := false }) else p)

/-! ### Derived predicates used in the statements -/

/-- The directory names among the root's entries. -/
def dirNames (es : List RootEntry) : List String :=
  es.filterMap fun e =>
    match e with
    | .dir n _ => some n
    | .file _ => none

/-- "This item's cache is fresh": the cache directory and a cached
    image exist and the meta record is within TTL (the fast-path
    condition of utils.py:153). -/
def cacheFreshB (c : CacheState) (ttl now : Int) : Bool :=
  c.dirExists && (firstExistingExt c.images).isSome &&
    is_fresh false ttl (c.metaFile.bind id) now

/-! ### Concrete fixtures for counterexamples and witnesses -/

/-- A network on which every request fails. -/
def netFail : Network := ⟨fun _ => .fail, fun _ => .fail⟩

/-- A network whose pages are empty successful documents. -/
def netEmptyPage : Network := ⟨fun _ => .resp 200 [], fun _ => .fail⟩

/-- C3: a cache with a parsed but stale meta record and no image file. -/
def mC3 : MDict := { official_title := some "T", fetched_at := some .unparsable }

def cacheC3 : CacheState := { dirExists := true, images := [], metaFile := some (some mC3) }

/-- C3 witness: a cache with an image and a stale meta record. -/
def cacheW3 : CacheState :=
  { dirExists := true, images := [".png"],
    metaFile := some (some { og_image_url := some "u1", fetched_at := some .unparsable }) }

/-- C3 witness: page succeeds with an og:image, image download fails. -/
def netW3 : Network :=
  ⟨fun _ => .resp 200 [("meta", [("property", some "og:image"), ("content", some "u2")])],
   fun _ => .fail⟩

/-- C1: a prior index record at path `root/itemA` whose sticky fields
    carry surrounding whitespace. -/
def recPriorC1 : Rec :=
  { path := some "root/itemA", purchase_title := some " A ", purchased_at := some "2020" }

def wC1 : RootFS := { entries := [.dir "itemA" {}], metaFile := .items [recPriorC1] }

/-- C5: the three URL forms of the claim, one per line. -/
def c5Text : String :=
  "//booth.pm/ja/items/999?utm=x\n/ja/items/999\nhttps://booth.pm/items/999"

/-- The html.parser event view of `c5Text`: tag-free text produces only
    data events, so `PurchaseHTMLParser` captures nothing. -/
def c5Events : List HtmlEvent := [.textData c5Text]

/-- C8: an index with one item, used to observe whether apply rewrites. -/
def recC8 : Rec := { title := "[7] x", path := some "r/[7] x", product_id := "7" }

def wC8 : RootFS := { entries := [], metaFile := .items [recC8] }

/-- C4 witness: a one-row store. -/
def dbW4 : List (String × DbRow) := (upsert_item [] 5 "i" "t" "u" "b" "f").2

/-- C2 witness: a fresh cache. -/
def mW2 : MDict :=
  { product_url := some "https://booth.pm/ja/items/5", official_title := some "X",
    fetched_at := some (.parsed 0) }

def cacheW2 : CacheState :=
  { dirExists := true, images := [".jpg"], metaFile := some (some mW2) }

/-- C9: a public item page that declares an og:image living on the
    account-scoped domain. -/
def evilImageUrl : String := "https://accounts.booth.pm/steal"

def netC9 : Network :=
  ⟨fun _ => .resp 200 [("meta", [("property", some "og:image"),
                                 ("content", some evilImageUrl)])],
   fun _ => .fail⟩

/-- C7 witness: one item folder with a fresh cache. -/
def metaC7 : MDict :=
  { product_id := some "3", product_url := some "https://booth.pm/ja/items/3",
    official_title := some "T", og_image_url := some "x",
    image_rel := some ".thumbnail_cache/booth.jpg", fetched_at := some (.parsed 0) }

def cacheC7 : CacheState :=
  { dirExists := true, images := [".jpg"], metaFile := some (some metaC7) }

def itemC7 : ItemFS :=
  { directFiles := ["a.zip"], subdirs := [("docs", ["m.pdf"])], cache := cacheC7 }

def wC7 : RootFS := { entries := [.dir "[3] T" itemC7, .file "metadata.json"], metaFile := .absent }

/-! ## General lemmas about the string helpers -/

theorem hl_dropWhile_idem (p : Char → Bool) (l : List Char) :
    (l.dropWhile p).dropWhile p = l.dropWhile p := by
  induction l with
  | nil => simp
  | cons a t ih =>
    by_cases h : p a
    · simpa [List.dropWhile_cons, h] using ih
    · simp [List.dropWhile_cons, h]

theorem hl_head?_dropWhile (p : Char → Bool) (l : List Char) :
    ∀ c, (l.dropWhile p).head? = some c → p c = false := by
  induction l with
  | nil => simp
  | cons a t ih =>
    intro c h
    by_cases hpa : p a
    · rw [List.dropWhile_cons, if_pos hpa] at h
      exact ih c h
    · rw [List.dropWhile_cons, if_neg hpa] at h
      simp at h
      subst h
      simpa using hpa

theorem hl_getLast?_dropWhile (p : Char → Bool) (l : List Char)
    (h : l.dropWhile p ≠ []) : (l.dropWhile p).getLast? = l.getLast? := by
  induction l with
  | nil => simp
  | cons a t ih =>
    by_cases hpa : p a
    · rw [List.dropWhile_cons, if_pos hpa] at h ⊢
      have ht : t ≠ [] := by
        intro he
        subst he
        simp at h
      rw [ih h]
      cases t with
      | nil => exact absurd rfl ht
      | cons b t' => rw [List.getLast?_cons_cons]
    · rw [List.dropWhile_cons, if_neg hpa]

theorem hl_dropWhile_eq_self_of_head (p : Char → Bool) (l : List Char)
    (h : ∀ c, l.head? = some c → p c = false) : l.dropWhile p = l := by
  cases l with
  | nil => rfl
  | cons a t =>
    have := h a rfl
    simp [List.dropWhile_cons, this]

theorem stripChars_idem (cs : List Char) :
    stripChars (stripChars cs) = stripChars cs := by
  unfold stripChars
  by_cases hL : (cs.dropWhile Char.isWhitespace).reverse.dropWhile Char.isWhitespace = []
  · rw [hL]
    simp
  · have hstep :
        ((cs.dropWhile Char.isWhitespace).reverse.dropWhile
            Char.isWhitespace).reverse.dropWhile Char.isWhitespace =
          ((cs.dropWhile Char.isWhitespace).reverse.dropWhile Char.isWhitespace).reverse := by
      apply hl_dropWhile_eq_self_of_head
      intro c hc
      rw [List.head?_reverse] at hc
      rw [hl_getLast?_dropWhile _ _ hL, List.getLast?_reverse] at hc
      exact hl_head?_dropWhile _ _ c hc
    rw [hstep, List.reverse_reverse, hl_dropWhile_idem]

theorem pyStrip_idem (s : String) : pyStrip (pyStrip s) = pyStrip s :=
  congrArg String.mk (stripChars_idem s.data)

theorem sdata_append (a b : String) : (a ++ b).data = a.data ++ b.data := by
  cases a
  cases b
  rfl

theorem path_append_inj (root n1 n2 : String)
    (h : root ++ "/" ++ n1 = root ++ "/" ++ n2) : n1 = n2 := by
  have hd := congrArg String.data h
  rw [sdata_append, sdata_append] at hd
  have h2 := List.append_cancel_left hd
  cases n1
  cases n2
  exact congrArg String.mk h2

theorem path_ne_empty (root n : String) : root ++ "/" ++ n ≠ "" := by
  intro h
  have hd := congrArg String.data h
  rw [sdata_append, sdata_append] at hd
  simp at hd

/-! ## Claim C10 -/

/-- C10: for every item folder whose basename does not begin with a
    bracketed digit run, `fetch_and_cache_thumbnail` returns
    `(none, none)` immediately, performing no network request and
    creating no cache directory or files (the cache state is returned
    untouched and the effect log is empty). -/
theorem claim_c10_no_product_id (folderName : String) (cache : CacheState)
    (net : Network) (now ttl : Int) (force : Bool)
    (h : extract_product_id folderName = none) :
    fetch_and_cache_thumbnail folderName cache net now ttl force =
      ⟨none, none, cache, []⟩ := by
  unfold fetch_and_cache_thumbnail
  rw [h]

theorem claim_c10_witness :
    extract_product_id "Cool Avatar" = none ∧
    fetch_and_cache_thumbnail "Cool Avatar" {} netFail 0 3600 false =
      ⟨none, none, {}, []⟩ :=
  ⟨by decide, claim_c10_no_product_id "Cool Avatar" {} netFail 0 3600 false (by decide)⟩

/-! ## Claim C6 (corrected) -/

/-- C6 counterexample: a successful page response carrying neither of
    the two og meta attributes yields a metadata dict (holding only
    `product_url`), not the `none` ("no metadata") outcome that a
    network failure yields — so absence of the attributes is not the
    same outcome as failure. -/
theorem claim_c6_counterexample :
    (fetch_public_item_meta netEmptyPage "123").1 =
      some { product_url := some "https://booth.pm/ja/items/123" } ∧
    (fetch_public_item_meta netEmptyPage "123").1 ≠ none ∧
    (fetch_public_item_meta netFail "123").1 = none :=
  ⟨by decide, by decide, by decide⟩

/-- C6 (amended): a network failure or a non-success status yields
    `none` ("no metadata"); a successful response in which neither
    declared meta attribute is (truthily) present yields a metadata
    record containing only the canonical `product_url`, with both
    attributes absent — non-fatal, but distinct from the `none`
    outcome. -/
theorem claim_c6_fetch_meta_outcomes (net : Network) (pid : String) :
    (net.page (build_public_item_url pid) = .fail →
      (fetch_public_item_meta net pid).1 = none) ∧
    (∀ status body, net.page (build_public_item_url pid) = .resp status body →
      400 ≤ status → (fetch_public_item_meta net pid).1 = none) ∧
    (∀ status body, net.page (build_public_item_url pid) = .resp status body →
      status < 400 → truthyS (parseBoothMeta body).og_title = false →
      truthyS (parseBoothMeta body).og_image = false →
      (fetch_public_item_meta net pid).1 =
        some { product_url := some (build_public_item_url pid) }) := by
  refine ⟨?_, ?_, ?_⟩
  · intro h
    unfold fetch_public_item_meta
    rw [h]
  · intro status body h h4
    unfold fetch_public_item_meta
    rw [h]
    simp [h4]
  · intro status body h h4 ht hi
    unfold fetch_public_item_meta
    rw [h]
    dsimp only
    rw [if_neg (by omega)]
    simp [ht, hi]

theorem claim_c6_witness :
    (fetch_public_item_meta netFail "9").1 = none ∧
    (fetch_public_item_meta netEmptyPage "9").1 =
      some { product_url := some (build_public_item_url "9") } :=
  ⟨(claim_c6_fetch_meta_outcomes netFail "9").1 rfl,
   (claim_c6_fetch_meta_outcomes netEmptyPage "9").2.2 200 [] rfl (by decide) rfl rfl⟩

/-! ## Claim C5 -/

theorem digitsAfterItems_digits (l ds : List Char)
    (h : digitsAfterItems l = some ds) :
    ds ≠ [] ∧ ds.all Char.isDigit = true := by
  unfold digitsAfterItems at h
  split at h
  · split at h
    · exact absurd h (by simp)
    · injection h with h'
      subst h'
      refine ⟨?_, ?_⟩
      · intro he
        rename_i hne
        rw [he] at hne
        simp at hne
      · rw [List.all_eq_true]
        intro x hx
        exact List.mem_takeWhile_imp hx
  · exact absurd h (by simp)

theorem searchAux_digits (l ds : List Char) (h : searchAux l = some ds) :
    ds ≠ [] ∧ ds.all Char.isDigit = true := by
  induction l with
  | nil => simp [searchAux] at h
  | cons c rest ih =>
    rw [searchAux] at h
    cases hda : digitsAfterItems (c :: rest) with
    | some ds' =>
      rw [hda] at h
      injection h with h'
      subst h'
      exact digitsAfterItems_digits _ _ hda
    | none =>
      rw [hda] at h
      exact ih h

/-- C5: URL normalization rewrites every recognized input to the one
    canonical public item URL for its (leftmost, maximal) digit id,
    discarding query strings and path variants; inputs in which the
    preprocessed URL contains no `/items/<digits>` pattern are rejected;
    and extraction deduplicates by normalized URL preserving first-seen
    order, so the three example forms collapse to one entry. -/
theorem claim_c5_url_normalization :
    (normalizeItemUrl "//booth.pm/ja/items/999?utm=x" =
      some "https://booth.pm/ja/items/999") ∧
    (normalizeItemUrl "/ja/items/999" = some "https://booth.pm/ja/items/999") ∧
    (normalizeItemUrl "https://booth.pm/items/999" =
      some "https://booth.pm/ja/items/999") ∧
    (∀ s r, normalizeItemUrl s = some r →
      ∃ pid, pid ≠ "" ∧ pid.data.all Char.isDigit = true ∧
        r = build_public_item_url pid) ∧
    (∀ s, searchItemsId (urlPrefixSteps (pyStrip s)) = none →
      normalizeItemUrl s = none) ∧
    ((buildPurchaseItems c5Text c5Events).1 =
      [⟨"999", "https://booth.pm/ja/items/999"⟩] ∧
     (buildPurchaseItems c5Text c5Events).2 = 1) := by
  refine ⟨by decide, by decide, by decide, ?_, ?_, by decide, by decide⟩
  · intro s r h
    unfold normalizeItemUrl at h
    split at h
    · exact absurd h (by simp)
    · split at h
      · exact absurd h (by simp)
      · cases hs : searchItemsId (urlPrefixSteps (pyStrip s)) with
        | none =>
          rw [hs] at h
          exact absurd h (by simp)
        | some pid =>
          rw [hs] at h
          injection h with h'
          refine ⟨pid, ?_, ?_, h'.symm⟩
          · unfold searchItemsId at hs
            cases hsa : searchAux (urlPrefixSteps (pyStrip s)).data with
            | none => rw [hsa] at hs; exact absurd hs (by simp)
            | some ds =>
              rw [hsa] at hs
              injection hs with hs'
              subst hs'
              intro he
              have := (searchAux_digits _ _ hsa).1
              exact this (congrArg String.data he)
          · unfold searchItemsId at hs
            cases hsa : searchAux (urlPrefixSteps (pyStrip s)).data with
            | none => rw [hsa] at hs; exact absurd hs (by simp)
            | some ds =>
              rw [hsa] at hs
              injection hs with hs'
              subst hs'
              exact (searchAux_digits _ _ hsa).2
  · intro s h
    unfold normalizeItemUrl
    split
    · rfl
    · split
      · rfl
      · rw [h]

/-! ## Claim C4 -/

theorem find_replace (db : List (String × DbRow)) (id : String) (row : DbRow)
    (hany : db.any (fun p => p.1 == id) = true) :
    (db.map (fun p => if p.1 == id then (id, row) else p)).find?
        (fun p => p.1 == id) = some (id, row) := by
  induction db with
  | nil => simp at hany
  | cons a rest ih =>
    by_cases hb : (a.1 == id) = true
    · simp only [List.map_cons, if_pos hb, List.find?_cons, BEq.refl]
    · have hb' : (a.1 == id) = false := Bool.eq_false_iff.mpr hb
      rw [List.any_cons, hb', Bool.false_or] at hany
      rw [List.map_cons, if_neg hb, List.find?_cons, hb']
      exact ih hany

theorem find_append (db : List (String × DbRow)) (id : String) (row : DbRow)
    (hany : db.any (fun p => p.1 == id) = false) :
    (db ++ [(id, row)]).find? (fun p => p.1 == id) = some (id, row) := by
  induction db with
  | nil => simp [List.find?_cons]
  | cons a rest ih =>
    rw [List.any_cons, Bool.or_eq_false_iff] at hany
    rw [List.cons_append]
    simp only [List.find?_cons, hany.1]
    exact ih hany.2

theorem lookupRow_upsert_self (db : List (String × DbRow)) (now : Int)
    (id t u b f : String) :
    lookupRow (upsert_item db now id t u b f).2 id =
      some ⟨t, u, b, f, now, compute_hash t u b,
            (upsert_item db now id t u b f).1⟩ := by
  unfold upsert_item
  by_cases hany : db.any (fun p => p.1 == id) = true
  · rw [if_pos hany]
    unfold lookupRow
    rw [find_replace db id _ hany]
    rfl
  · have h' : db.any (fun p => p.1 == id) = false := Bool.eq_false_iff.mpr hany
    rw [if_neg hany]
    unfold lookupRow
    rw [find_append db id _ h']
    rfl

theorem lookupRow_clear (db : List (String × DbRow)) (id id' : String) :
    lookupRow (clear_update_flag db id) id' =
      if id' = id then
        (lookupRow db id').map (fun r => { r with has_update := false })
      else lookupRow db id' := by
  induction db with
  | nil =>
    simp only [clear_update_flag, List.map_nil, lookupRow, List.find?_nil,
      Option.map_none']
    split <;> rfl
  | cons a rest ih =>
    simp only [clear_update_flag, lookupRow] at ih ⊢
    rw [List.map_cons]
    by_cases hb : (a.1 == id) = true
    · by_cases hb' : (a.1 == id') = true
      · have he : a.1 = id := by exact eq_of_beq hb
        have he' : a.1 = id' := by exact eq_of_beq hb'
        simp only [if_pos hb, List.find?_cons, hb', Option.map_some']
        rw [if_pos (he' ▸ he)]
      · have hb2 : (a.1 == id') = false := Bool.eq_false_iff.mpr hb'
        simp only [if_pos hb, List.find?_cons, hb2]
        exact ih
    · have hb2 : (a.1 == id) = false := Bool.eq_false_iff.mpr hb
      by_cases hb' : (a.1 == id') = true
      · have hne : id' ≠ id := by
          intro he
          rw [he] at hb'
          exact hb hb'
        simp only [if_neg hb, List.find?_cons, hb', Option.map_some']
        rw [if_neg hne]
      · have hb2' : (a.1 == id') = false := Bool.eq_false_iff.mpr hb'
        simp only [if_neg hb, List.find?_cons, hb2']
        exact ih

set_option maxRecDepth 200000 in
/-- C4: `upsert_item` returns `has_update = false` when no prior row
    exists, and true iff the prior stored content hash differs from
    SHA-256(title|url|thumb_url) of the new values; it always overwrites
    the row with the new hash and the current timestamp regardless of
    the flag; two consecutive upserts with identical values yield false
    the second time; changing one field yields true, and
    `clear_update_flag` resets only the flag (checked both in general
    and on a concrete run with the real SHA-256). -/
theorem claim_c4_upsert_change_detection :
    (∀ db now id t u b f,
      (upsert_item db now id t u b f).1 =
        match lookupRow db id with
        | none => false
        | some r => r.content_hash != compute_hash t u b) ∧
    (∀ db now id t u b f,
      lookupRow (upsert_item db now id t u b f).2 id =
        some ⟨t, u, b, f, now, compute_hash t u b,
              (upsert_item db now id t u b f).1⟩) ∧
    (∀ db now now' id t u b f f',
      (upsert_item (upsert_item db now id t u b f).2 now' id t u b f').1 = false) ∧
    (∀ db id id', id' ≠ id →
      lookupRow (clear_update_flag db id) id' = lookupRow db id') ∧
    (∀ db id,
      lookupRow (clear_update_flag db id) id =
        (lookupRow db id).map (fun r => { r with has_update := false })) ∧
    ((upsert_item [] 100 "i" "t1" "u" "b" "f").1 = false ∧
     (upsert_item (upsert_item [] 100 "i" "t1" "u" "b" "f").2
        101 "i" "t1" "u" "b" "f").1 = false ∧
     (upsert_item (upsert_item [] 100 "i" "t1" "u" "b" "f").2
        101 "i" "t2" "u" "b" "f").1 = true ∧
     (upsert_item (upsert_item [] 100 "i" "t1" "u" "b" "f").2
        101 "i" "t1" "u2" "b" "f").1 = true ∧
     (upsert_item (upsert_item [] 100 "i" "t1" "u" "b" "f").2
        101 "i" "t1" "u" "b2" "f").1 = true ∧
     lookupRow
        (clear_update_flag
          (upsert_item (upsert_item [] 100 "i" "t1" "u" "b" "f").2
            101 "i" "t2" "u" "b" "f").2 "i") "i" =
       some ⟨"t2", "u", "b", "f", 101, compute_hash "t2" "u" "b", false⟩) := by
  refine ⟨?_, lookupRow_upsert_self, ?_, ?_, ?_, ?_⟩
  · intro db now id t u b f
    rfl
  · intro db now now' id t u b f f'
    have h2 := lookupRow_upsert_self db now id t u b f
    show upsertFlag _ _ _ _ _ = false
    unfold upsertFlag
    rw [h2]
    simp
  · intro db id id' h
    rw [lookupRow_clear, if_neg h]
  · intro db id
    rw [lookupRow_clear, if_pos rfl]
  · refine ⟨rfl, ?_, ?_, ?_, ?_, ?_⟩ <;> decide

theorem claim_c4_witness :
    lookupRow (clear_update_flag dbW4 "i") "j" = lookupRow dbW4 "j" :=
  claim_c4_upsert_change_detection.2.2.2.1 dbW4 "i" "j" (by decide)

/-! ## Claim C2 -/

theorem fetch_meta_log (net : Network) (pid : String) :
    (fetch_public_item_meta net pid).2 = [.netPage (build_public_item_url pid)] := by
  unfold fetch_public_item_meta
  cases net.page (build_public_item_url pid) with
  | fail => rfl
  | resp status body =>
    dsimp only
    by_cases h : 400 ≤ status
    · rw [if_pos h]
    · rw [if_neg h]

theorem cache_set_dirExists (c : CacheState) (h : c.dirExists = true) :
    ({ c with dirExists := true } : CacheState) = c := by
  cases c
  simp only at h
  rw [h]

theorem fetch_fastPath (name : String) (c : CacheState) (net : Network)
    (now ttl : Int) (force : Bool) (pid : String)
    (hpid : extract_product_id name = some pid)
    (hdir : c.dirExists = true)
    (hex : (firstExistingExt c.images).isSome = true)
    (hfresh : is_fresh force ttl (c.metaFile.bind id) now = true) :
    fetch_and_cache_thumbnail name c net now ttl force =
      ⟨(firstExistingExt c.images).map (fun e => ".thumbnail_cache/booth" ++ e),
       c.metaFile.bind id, c, []⟩ := by
  unfold fetch_and_cache_thumbnail
  rw [hpid]
  have hc : ({ c with dirExists := true } : CacheState) = c :=
    cache_set_dirExists c hdir
  simp only [hc, hdir, Option.isSome_map', hex, hfresh, Bool.and_self, if_true,
    eq_self_iff_true]

/-- C2: the freshness predicate holds iff `force_refresh` is false,
    `ttl > 0`, the meta record parses with a parseable `fetched_at`, and
    `now − fetched_at < ttl`; when a cached image exists and the cache
    is fresh, `fetch_and_cache_thumbnail` returns the existing image
    path and meta with an empty effect log (zero network requests, zero
    disk writes); `fetched_at = now − ttl − 1` is not fresh and, with a
    product id, triggers a page request, while `fetched_at = now − ttl + 1`
    is fresh. -/
theorem claim_c2_ttl_freshness :
    (∀ force ttl meta now,
      is_fresh force ttl meta now = true ↔
        (force = false ∧ 0 < ttl ∧
         ∃ m t, meta = some m ∧ m.fetched_at = some (.parsed t) ∧ now - t < ttl)) ∧
    (∀ name c net now ttl force pid,
      extract_product_id name = some pid →
      c.dirExists = true →
      (firstExistingExt c.images).isSome = true →
      is_fresh force ttl (c.metaFile.bind id) now = true →
      fetch_and_cache_thumbnail name c net now ttl force =
        ⟨(firstExistingExt c.images).map (fun e => ".thumbnail_cache/booth" ++ e),
         c.metaFile.bind id, c, []⟩) ∧
    (∀ now ttl (m : MDict), 0 < ttl →
      m.fetched_at = some (.parsed (now - ttl - 1)) →
      is_fresh false ttl (some m) now = false) ∧
    (∀ now ttl (m : MDict),
      m.fetched_at = some (.parsed (now - ttl + 1)) →
      0 < ttl →
      is_fresh false ttl (some m) now = true) ∧
    (∀ name c net now ttl force pid,
      extract_product_id name = some pid →
      is_fresh force ttl (c.metaFile.bind id) now = false →
      Eff.netPage (build_public_item_url pid) ∈
        (fetch_and_cache_thumbnail name c net now ttl force).log) := by
  refine ⟨?_, fetch_fastPath, ?_, ?_, ?_⟩
  · intro force ttl meta now
    unfold is_fresh
    cases force with
    | true => simp
    | false =>
      by_cases ht : ttl ≤ 0
      · rw [if_neg (by simp), if_pos ht]
        simp only [Bool.false_eq_true, false_iff]
        rintro ⟨-, h2, -⟩
        omega
      · rw [if_neg (by simp), if_neg ht]
        cases meta with
        | none => simp
        | some m =>
          dsimp only
          cases hfa : m.fetched_at with
          | none =>
            simp only [Bool.false_eq_true, false_iff]
            rintro ⟨-, -, m', t', hm, hfa', -⟩
            injection hm with hm
            subst hm
            rw [hfa] at hfa'
            cases hfa'
          | some tv =>
            cases tv with
            | parsed dt =>
              dsimp only
              rw [decide_eq_true_eq]
              constructor
              · intro hlt
                exact ⟨rfl, by omega, m, dt, rfl, hfa, hlt⟩
              · rintro ⟨-, -, m', t', hm, hfa', hlt⟩
                injection hm with hm
                subst hm
                rw [hfa] at hfa'
                injection hfa' with h3
                injection h3 with h4
                omega
            | unparsable =>
              dsimp only
              simp only [Bool.false_eq_true, false_iff]
              rintro ⟨-, -, m', t', hm, hfa', -⟩
              injection hm with hm
              subst hm
              rw [hfa] at hfa'
              injection hfa' with h3
              cases h3
  · intro now ttl m ht hfa
    unfold is_fresh
    rw [if_neg (by simp), if_neg (by omega)]
    dsimp only
    rw [hfa]
    dsimp only
    rw [decide_eq_false_iff_not]
    omega
  · intro now ttl m hfa ht
    unfold is_fresh
    rw [if_neg (by simp), if_neg (by omega)]
    dsimp only
    rw [hfa]
    dsimp only
    rw [decide_eq_true_eq]
    omega
  · intro name c net now ttl force pid hpid hstale
    unfold fetch_and_cache_thumbnail
    rw [hpid]
    rcases hfp : fetch_public_item_meta net pid with ⟨mq, plog⟩
    have hplog : plog = [.netPage (build_public_item_url pid)] := by
      have h2 := fetch_meta_log net pid
      rw [hfp] at h2
      exact h2
    have hmeta : ({ c with dirExists := true } : CacheState).metaFile = c.metaFile := rfl
    simp only [hmeta, hstale, Bool.and_false, Bool.false_eq_true, if_false, hfp,
      hplog]
    cases mq with
    | none =>
      dsimp only
      split <;> simp
    | some meta =>
      dsimp only
      cases meta.og_image_url with
      | none => simp
      | some og =>
        dsimp only
        split
        · simp
        · cases net.image og with
          | fail => simp
          | ok ctype => simp

theorem claim_c2_witness :
    fetch_and_cache_thumbnail "[5] X" cacheW2 netFail 10 3600 false =
      ⟨some ".thumbnail_cache/booth.jpg", some mW2, cacheW2, []⟩ := by
  have h := claim_c2_ttl_freshness.2.1 "[5] X" cacheW2 netFail 10 3600 false "5"
    (by decide) rfl (by decide) (by decide)
  rw [h]
  decide

/-! ## Claim C3 (corrected) -/

/-- C3 counterexample: with a parsed (but stale) meta record present and
    no cached image, a total metadata-fetch failure returns
    `(none, none)` — the existing cached meta is discarded, contradicting
    "returns whatever existing cached image path and meta are present". -/
theorem claim_c3_counterexample :
    (fetch_and_cache_thumbnail "[9] A" cacheC3 netFail 0 3600 false).meta = none ∧
    (fetch_and_cache_thumbnail "[9] A" cacheC3 netFail 0 3600 false).thumb = none ∧
    cacheC3.metaFile = some (some mC3) ∧ some mC3 ≠ (none : Option MDict) :=
  ⟨by decide, by decide, by decide, by decide⟩

/-- C3 (amended): `fetch_and_cache_thumbnail` is a total function of its
    inputs (no exception escapes for network conditions).  If the
    metadata fetch totally fails, it returns the existing image path and
    existing meta when a cached image is present, and `(none, none)`
    otherwise — cached meta without a cached image is discarded; the
    cache is left untouched.  If the image download fails, it returns
    the pre-attempt existing image path together with the freshly
    fetched meta, leaving the cached files untouched. -/
theorem claim_c3_network_fallbacks (name : String) (c : CacheState)
    (net : Network) (now ttl : Int) (force : Bool) (pid : String)
    (hpid : extract_product_id name = some pid)
    (hdir : c.dirExists = true) :
    ((fetch_public_item_meta net pid).1 = none →
      (fetch_and_cache_thumbnail name c net now ttl force).cache = c ∧
      (fetch_and_cache_thumbnail name c net now ttl force).thumb =
        (firstExistingExt c.images).map (fun e => ".thumbnail_cache/booth" ++ e) ∧
      (fetch_and_cache_thumbnail name c net now ttl force).meta =
        (if (firstExistingExt c.images).isSome then c.metaFile.bind id else none)) ∧
    (∀ m og, (fetch_public_item_meta net pid).1 = some m →
      m.og_image_url = some og →
      net.image og = .fail →
      is_fresh force ttl (c.metaFile.bind id) now = false →
      (!force && (firstExistingExt c.images).isSome &&
        (match c.metaFile.bind id with
         | some em => pyStrip (em.og_image_url.getD "") == pyStrip og
         | none => false)) = false →
      fetch_and_cache_thumbnail name c net now ttl force =
        ⟨(firstExistingExt c.images).map (fun e => ".thumbnail_cache/booth" ++ e),
         some m, c,
         [.netPage (build_public_item_url pid), .netImage og]⟩) := by
  constructor
  · intro hm
    have hfp : fetch_public_item_meta net pid =
        (none, [.netPage (build_public_item_url pid)]) := by
      have hl := fetch_meta_log net pid
      have he : fetch_public_item_meta net pid =
          ((fetch_public_item_meta net pid).1, (fetch_public_item_meta net pid).2) := rfl
      rw [he, hm, hl]
    simp only [fetch_and_cache_thumbnail, hpid, cache_set_dirExists c hdir, hfp]
    by_cases hfast :
        ((Option.map (fun e => ".thumbnail_cache/booth" ++ e)
            (firstExistingExt c.images)).isSome &&
          is_fresh force ttl (c.metaFile.bind id) now) = true
    · have hfast' := hfast
      rw [Bool.and_eq_true, Option.isSome_map'] at hfast'
      rw [if_pos hfast]
      refine ⟨rfl, rfl, ?_⟩
      show c.metaFile.bind id = _
      rw [if_pos hfast'.1]
    · rw [if_neg hfast]
      cases hfe : firstExistingExt c.images with
      | some e =>
        rw [if_pos (by rfl)]
        refine ⟨rfl, rfl, ?_⟩
        show c.metaFile.bind id = _
        rw [if_pos (by rfl)]
      | none =>
        rw [if_neg (by simp)]
        refine ⟨rfl, rfl, ?_⟩
        show (none : Option MDict) = _
        rw [if_neg (by simp)]
  · intro m og hm hog himg hstale hskip
    have hfp : fetch_public_item_meta net pid =
        (some m, [.netPage (build_public_item_url pid)]) := by
      have hl := fetch_meta_log net pid
      have he : fetch_public_item_meta net pid =
          ((fetch_public_item_meta net pid).1, (fetch_public_item_meta net pid).2) := rfl
      rw [he, hm, hl]
    have hfastF :
        ((Option.map (fun e => ".thumbnail_cache/booth" ++ e)
            (firstExistingExt c.images)).isSome &&
          is_fresh force ttl (c.metaFile.bind id) now) = false := by
      rw [hstale, Bool.and_false]
    have hskip' :
        (!force &&
          (Option.map (fun e => ".thumbnail_cache/booth" ++ e)
            (firstExistingExt c.images)).isSome &&
          (match c.metaFile.bind id with
           | some em => pyStrip (em.og_image_url.getD "") == pyStrip og
           | none => false)) = false := by
      rw [Option.isSome_map']
      exact hskip
    simp only [fetch_and_cache_thumbnail, hpid, cache_set_dirExists c hdir, hfp]
    rw [if_neg (Bool.eq_false_iff.mp hfastF)]
    rw [hog]
    dsimp only
    rw [if_neg (Bool.eq_false_iff.mp hskip')]
    rw [himg]
    dsimp only
    rw [if_pos hdir]
    rfl

theorem claim_c3_witness :
    fetch_and_cache_thumbnail "[9] A" cacheW3 netW3 0 3600 false =
      ⟨some ".thumbnail_cache/booth.png",
       some { product_url := some (build_public_item_url "9"),
              og_image_url := some "u2" },
       cacheW3, [.netPage (build_public_item_url "9"), .netImage "u2"]⟩ := by
  have h := (claim_c3_network_fallbacks "[9] A" cacheW3 netW3 0 3600 false "9"
      (by decide) rfl).2
    { product_url := some (build_public_item_url "9"), og_image_url := some "u2" }
    "u2" (by decide) rfl rfl (by decide) (by decide)
  rw [h]
  decide

/-! ## Claim C9 (code_bug) -/

/-- C9: the metadata fetch issues exactly one GET, to the canonical
    public item URL, which always lives on the public booth.pm domain;
    but the image download targets whatever URL the fetched page's
    og:image attribute supplies — on the failing input `netC9` (a page
    declaring `og:image = https://accounts.booth.pm/steal`) the code
    issues a GET to the account-scoped domain, violating the stated
    safety invariant (and storage.py's own "NEVER accesses
    accounts.booth.pm" docstring). -/
theorem claim_c9_network_surface :
    (∀ net pid, (fetch_public_item_meta net pid).2 =
      [.netPage (build_public_item_url pid)]) ∧
    (∀ pid, startsWithS (build_public_item_url pid) "https://booth.pm/" = true) ∧
    (Eff.netImage evilImageUrl ∈
      (fetch_and_cache_thumbnail "[77] X" {} netC9 0 3600 false).log) ∧
    startsWithS evilImageUrl "https://booth.pm/" = false := by
  refine ⟨fetch_meta_log, ?_, by decide, by decide⟩
  intro pid
  show headMatches _ _ = true
  rw [show (build_public_item_url pid).data =
        "https://booth.pm/ja/items/".data ++ pid.data from sdata_append _ _]
  rfl

/-! ## Claim C1 (corrected) -/

theorem prevMapGet_nil (p : String) : prevMapGet [] p = none := by
  unfold prevMapGet
  split <;> rfl

theorem ifEmptyCollapse (s : String) : (if s == "" then "" else s) = s := by
  by_cases h : s == ""
  · rw [if_pos h]
    exact (eq_of_beq h).symm
  · rw [if_neg h]

/-- The scan loop body touches the prior index only through the three
    inherited fields: everything else it produces, the updated item
    filesystem, and the effect log are those of a prior-free run. -/
theorem processItem_prev_fields (root : String) (net : Network) (now ttl : Int)
    (force : Bool) (prev : List Rec) (name : String) (fs : ItemFS) :
    (processItem root net now ttl force prev name fs).record.purchase_title =
      some (inheritPT (prevMapGet prev (root ++ "/" ++ name))) ∧
    (processItem root net now ttl force prev name fs).record.purchased_at =
      some (inheritPA (prevMapGet prev (root ++ "/" ++ name))) ∧
    (∃ t0 : String,
      (processItem root net now ttl force [] name fs).record.thumbnail = some t0 ∧
      (processItem root net now ttl force prev name fs).record.thumbnail =
        some (if t0 == "" then inheritTH (prevMapGet prev (root ++ "/" ++ name))
              else t0)) ∧
    (processItem root net now ttl force prev name fs).record.title =
      (processItem root net now ttl force [] name fs).record.title ∧
    (processItem root net now ttl force prev name fs).record.path =
      (processItem root net now ttl force [] name fs).record.path ∧
    (processItem root net now ttl force prev name fs).record.product_id =
      (processItem root net now ttl force [] name fs).record.product_id ∧
    (processItem root net now ttl force prev name fs).record.product_url =
      (processItem root net now ttl force [] name fs).record.product_url ∧
    (processItem root net now ttl force prev name fs).record.official_title =
      (processItem root net now ttl force [] name fs).record.official_title ∧
    (processItem root net now ttl force prev name fs).record.files =
      (processItem root net now ttl force [] name fs).record.files ∧
    (processItem root net now ttl force prev name fs).record.stats =
      (processItem root net now ttl force [] name fs).record.stats ∧
    (processItem root net now ttl force prev name fs).fs =
      (processItem root net now ttl force [] name fs).fs ∧
    (processItem root net now ttl force prev name fs).log =
      (processItem root net now ttl force [] name fs).log := by
  cases hpid : extract_product_id name with
  | none =>
    simp only [processItem, hpid]
    refine ⟨trivial, trivial, ⟨inheritTH none, ?_, ?_⟩, trivial, trivial, trivial,
      trivial, trivial, trivial, trivial, trivial, trivial⟩
    · rw [prevMapGet_nil]
    · rfl
  | some pid =>
    simp only [processItem, hpid]
    refine ⟨trivial, trivial,
      ⟨(match (fetch_and_cache_thumbnail name fs.cache net now ttl force).thumb with
        | some t => if t != "" then t else ""
        | none => ""), ?_, rfl⟩,
      trivial, trivial, trivial, trivial, trivial, trivial, trivial, trivial,
      trivial⟩
    rw [prevMapGet_nil]
    simp only [inheritTH, ifEmptyCollapse]

/-- The persisted items of a scan are exactly the per-directory records
    of the loop body, in directory order. -/
theorem scan_items_eq (root : String) (w : RootFS) (net : Network)
    (now ttl : Int) (force : Bool) (diff : Bool) :
    (scan_dl_folder root w net now ttl force diff).items =
      w.entries.filterMap (fun e =>
        match e with
        | .dir n fs =>
          some (processItem root net now ttl force
            (if diff then indexItems w.metaFile else []) n fs).record
        | .file _ => none) := by
  unfold scan_dl_folder
  dsimp only
  rw [List.filterMap_map]
  have hf : ((fun s => EntryStep.rec? s) ∘
        stepEntry root net now ttl force (if diff then indexItems w.metaFile else [])) =
      (fun e =>
        match e with
        | .dir n fs =>
          some (processItem root net now ttl force
            (if diff then indexItems w.metaFile else []) n fs).record
        | .file _ => none) := by
    funext e
    cases e <;> rfl
  rw [hf]

/-- C1 counterexample: a prior record whose `purchase_title` carries
    surrounding whitespace (`" A "`) is not preserved verbatim by the
    rescan — the new index holds the stripped value `"A"`. -/
theorem claim_c1_counterexample :
    (indexItems wC1.metaFile).map (fun r => r.purchase_title) = [some " A "] ∧
    (scan_dl_folder "root" wC1 netFail 0 3600 false true).items.map
      (fun r => r.purchase_title) = [some "A"] ∧
    (some "A" : Option String) ≠ some " A " :=
  ⟨by decide, by decide, by decide⟩

/-- C1 (amended): on every rescan, for an item folder at a path present
    in the prior persisted index, `purchase_title` and `purchased_at`
    are set to the whitespace-stripped prior values (empty when the
    prior value is absent or not a string) — hence equal to the prior
    values exactly when those are already stripped strings — and
    `thumbnail` is inherited (stripped) from the prior record only when
    the current scan produced none; every other field, the updated item
    filesystem state, and the effect log are those of a scan with no
    prior index. -/
theorem claim_c1_sticky_fields :
    (∀ root w net now ttl force,
      (scan_dl_folder root w net now ttl force true).items =
        w.entries.filterMap (fun e =>
          match e with
          | .dir n fs =>
            some (processItem root net now ttl force (indexItems w.metaFile) n fs).record
          | .file _ => none)) ∧
    (∀ root net now ttl force prev name fs,
      (processItem root net now ttl force prev name fs).record.purchase_title =
        some (inheritPT (prevMapGet prev (root ++ "/" ++ name))) ∧
      (processItem root net now ttl force prev name fs).record.purchased_at =
        some (inheritPA (prevMapGet prev (root ++ "/" ++ name))) ∧
      (∃ t0 : String,
        (processItem root net now ttl force [] name fs).record.thumbnail = some t0 ∧
        (processItem root net now ttl force prev name fs).record.thumbnail =
          some (if t0 == "" then inheritTH (prevMapGet prev (root ++ "/" ++ name))
                else t0)) ∧
      (processItem root net now ttl force prev name fs).record.title =
        (processItem root net now ttl force [] name fs).record.title ∧
      (processItem root net now ttl force prev name fs).record.path =
        (processItem root net now ttl force [] name fs).record.path ∧
      (processItem root net now ttl force prev name fs).record.product_id =
        (processItem root net now ttl force [] name fs).record.product_id ∧
      (processItem root net now ttl force prev name fs).record.product_url =
        (processItem root net now ttl force [] name fs).record.product_url ∧
      (processItem root net now ttl force prev name fs).record.official_title =
        (processItem root net now ttl force [] name fs).record.official_title ∧
      (processItem root net now ttl force prev name fs).record.files =
        (processItem root net now ttl force [] name fs).record.files ∧
      (processItem root net now ttl force prev name fs).record.stats =
        (processItem root net now ttl force [] name fs).record.stats ∧
      (processItem root net now ttl force prev name fs).fs =
        (processItem root net now ttl force [] name fs).fs ∧
      (processItem root net now ttl force prev name fs).log =
        (processItem root net now ttl force [] name fs).log) := by
  constructor
  · intro root w net now ttl force
    rw [scan_items_eq]
    simp
  · intro root net now ttl force prev name fs
    exact processItem_prev_fields root net now ttl force prev name fs

/-! ## Claim C8 (corrected) -/

/-- C8 counterexample: with a parsed index holding one item, an
    unparsable purchase-import file returns `{total 0, matched 0,
    updated 0}` WITHOUT rewriting the persisted index (`wrote = false`),
    whereas an actually-empty record set does rewrite it — so the
    unparsable file is not "treated as an empty record set with the
    operation proceeding". -/
theorem claim_c8_counterexample :
    apply_purchase_import_json wC8 .unparsable =
      ⟨0, 0, 0, .items [recC8], false⟩ ∧
    (apply_purchase_import_json wC8 (.items [])).wrote = true ∧
    (apply_purchase_import_json wC8 (.items [])).updated = 0 :=
  ⟨by decide, by decide, by decide⟩

/-- C8 (amended): `apply_purchase_import_json` rewrites the persisted
    index whenever the index parses with an `items` list and the
    purchase file parses with an `items` list — even when no field
    changed; an unparsable purchase file, a non-list `items` in it, or a
    parsed index document without an `items` list each yield
    `{0, 0, 0}` without touching the index. -/
theorem claim_c8_apply_rewrite :
    (∀ w pl, w.metaFile ≠ .badItems →
      (apply_purchase_import_json w (.items pl)).wrote = true) ∧
    (∀ w, apply_purchase_import_json w .unparsable = ⟨0, 0, 0, w.metaFile, false⟩) ∧
    (∀ w, apply_purchase_import_json w .itemsNotList =
      ⟨0, 0, 0, w.metaFile, false⟩) ∧
    (∀ w p, w.metaFile = .badItems →
      apply_purchase_import_json w p = ⟨0, 0, 0, w.metaFile, false⟩) ∧
    (∀ w pl, w.metaFile ≠ .badItems →
      (apply_purchase_import_json w (.items pl)).total =
        (buildSrcMap pl).length) := by
  refine ⟨?_, ?_, ?_, ?_, ?_⟩
  · intro w pl hbad
    unfold apply_purchase_import_json
    cases hw : w.metaFile with
    | badItems => exact absurd hw hbad
    | absent => rfl
    | items l => rfl
  · intro w
    unfold apply_purchase_import_json
    cases w.metaFile <;> rfl
  · intro w
    unfold apply_purchase_import_json
    cases w.metaFile <;> rfl
  · intro w p hw
    unfold apply_purchase_import_json
    rw [hw]
  · intro w pl hbad
    unfold apply_purchase_import_json
    cases hw : w.metaFile with
    | badItems => exact absurd hw hbad
    | absent => rfl
    | items l => rfl

theorem claim_c8_witness :
    (apply_purchase_import_json wC8 (.items [])).wrote = true :=
  claim_c8_apply_rewrite.1 wC8 [] (by decide)

/-! ## Claim C7 -/

theorem pyStrip_empty : pyStrip "" = "" := rfl

theorem ifNeCollapse (s : String) : (if s != "" then s else "") = s := by
  by_cases h : s == ""
  · rw [bne, if_neg (by simp [h])]
    exact (eq_of_beq h).symm
  · rw [bne, if_pos (by simp [h])]

theorem inheritPT_fixed (x : Option Rec) : pyStrip (inheritPT x) = inheritPT x := by
  cases x with
  | none => rfl
  | some p =>
    unfold inheritPT
    dsimp only
    cases hpt : p.purchase_title with
    | none => rfl
    | some t => exact pyStrip_idem t

theorem inheritPA_fixed (x : Option Rec) : pyStrip (inheritPA x) = inheritPA x := by
  cases x with
  | none => rfl
  | some p =>
    unfold inheritPA
    dsimp only
    cases hpa : p.purchased_at with
    | none => rfl
    | some t => exact pyStrip_idem t

theorem inheritTH_fixed (x : Option Rec) : pyStrip (inheritTH x) = inheritTH x := by
  cases x with
  | none => rfl
  | some p =>
    unfold inheritTH
    dsimp only
    cases hth : p.thumbnail with
    | none => rfl
    | some t =>
      dsimp only
      by_cases h : (pyStrip t != "") = true
      · rw [if_pos h]
        exact pyStrip_idem t
      · rw [if_neg h]
        rfl

theorem inheritTH_idem (x : Option Rec) :
    (if pyStrip (inheritTH x) != "" then pyStrip (inheritTH x) else "") =
      inheritTH x := by
  rw [inheritTH_fixed, ifNeCollapse]

theorem append_ne_empty (a b : String) (h : a.data ≠ []) : a ++ b ≠ "" := by
  intro he
  have hd := congrArg String.data he
  rw [sdata_append] at hd
  rw [List.append_eq_nil] at hd
  exact h hd.1

theorem cacheFreshB_parts (c : CacheState) (ttl t : Int)
    (h : cacheFreshB c ttl t = true) :
    c.dirExists = true ∧ (firstExistingExt c.images).isSome = true ∧
    is_fresh false ttl (c.metaFile.bind id) t = true := by
  unfold cacheFreshB at h
  rw [Bool.and_eq_true, Bool.and_eq_true] at h
  exact ⟨h.1.1, h.1.2, h.2⟩

theorem cacheFreshB_meta (c : CacheState) (ttl t : Int)
    (h : cacheFreshB c ttl t = true) :
    ∃ m, c.metaFile.bind id = some m := by
  obtain ⟨-, -, h3⟩ := cacheFreshB_parts c ttl t h
  unfold is_fresh at h3
  rw [if_neg (by simp)] at h3
  by_cases ht : ttl ≤ 0
  · rw [if_pos ht] at h3
    cases h3
  · rw [if_neg ht] at h3
    cases hm : c.metaFile.bind id with
    | none =>
      rw [hm] at h3
      cases h3
    | some m => exact ⟨m, rfl⟩

theorem is_fresh_mono (ttl t1 t2 : Int) (meta : Option MDict) (hle : t1 ≤ t2)
    (h : is_fresh false ttl meta t2 = true) :
    is_fresh false ttl meta t1 = true := by
  unfold is_fresh at h ⊢
  rw [if_neg (by simp)] at h ⊢
  by_cases ht : ttl ≤ 0
  · rw [if_pos ht] at h
    cases h
  · rw [if_neg ht] at h ⊢
    cases meta with
    | none => exact h
    | some m =>
      dsimp only at h ⊢
      cases hfa : m.fetched_at with
      | none =>
        rw [hfa] at h
        simp at h
      | some tv =>
        cases tv with
        | parsed dt =>
          rw [hfa] at h
          dsimp only at h ⊢
          rw [decide_eq_true_eq] at h
          rw [decide_eq_true_eq]
          omega
        | unparsable =>
          rw [hfa] at h
          simp at h

theorem cacheFreshB_mono (c : CacheState) (ttl t1 t2 : Int) (hle : t1 ≤ t2)
    (h : cacheFreshB c ttl t2 = true) : cacheFreshB c ttl t1 = true := by
  obtain ⟨h1, h2, h3⟩ := cacheFreshB_parts c ttl t2 h
  unfold cacheFreshB
  rw [h1, h2, is_fresh_mono ttl t1 t2 _ hle h3]
  rfl

theorem inheritPT_some (r : Rec) :
    inheritPT (some r) = (r.purchase_title.map pyStrip).getD "" := rfl

theorem inheritPA_some (r : Rec) :
    inheritPA (some r) = (r.purchased_at.map pyStrip).getD "" := rfl

theorem inheritTH_some (r : Rec) :
    inheritTH (some r) =
      (match r.thumbnail with
       | some t => if pyStrip t != "" then pyStrip t else ""
       | none => "") := rfl

/-- Second-scan stability of the loop body: when every product-id item
    has a fresh cache at both scan times and the second scan's prior
    index holds the first scan's record for this path, the second run of
    the loop body reproduces the first run's record exactly, and the
    first run leaves the item folder untouched with an empty log. -/
theorem processItem_second (root : String) (net : Network) (t1 t2 ttl : Int)
    (prev1 prev2 : List Rec) (name : String) (fs : ItemFS)
    (hfr : ∀ pid, extract_product_id name = some pid →
      cacheFreshB fs.cache ttl t1 = true ∧ cacheFreshB fs.cache ttl t2 = true)
    (hlook : prevMapGet prev2 (root ++ "/" ++ name) =
      some (processItem root net t1 ttl false prev1 name fs).record) :
    processItem root net t2 ttl false prev2 name fs =
      processItem root net t1 ttl false prev1 name fs ∧
    (processItem root net t1 ttl false prev1 name fs).fs = fs ∧
    (processItem root net t1 ttl false prev1 name fs).log = [] := by
  cases hpid : extract_product_id name with
  | none =>
    simp only [processItem, hpid] at hlook ⊢
    rw [hlook]
    refine ⟨?_, trivial, trivial⟩
    simp only [inheritPT_some, inheritPA_some, inheritTH_some, Option.map_some',
      Option.getD_some, inheritPT_fixed, inheritPA_fixed, inheritTH_idem]
  | some pid =>
    obtain ⟨hf1, hf2⟩ := hfr pid hpid
    obtain ⟨hdir1, hex1, hfrs1⟩ := cacheFreshB_parts _ _ _ hf1
    obtain ⟨-, -, hfrs2⟩ := cacheFreshB_parts _ _ _ hf2
    obtain ⟨m, hm⟩ := cacheFreshB_meta _ _ _ hf1
    obtain ⟨e, he⟩ := Option.isSome_iff_exists.mp hex1
    have hfetch1 :=
      fetch_fastPath name fs.cache net t1 ttl false pid hpid hdir1 hex1 hfrs1
    have hfetch2 :=
      fetch_fastPath name fs.cache net t2 ttl false pid hpid hdir1 hex1 hfrs2
    have hrel : (((".thumbnail_cache/booth" ++ e : String)) != "") = true := by
      rw [bne_iff_ne]
      exact append_ne_empty _ _ (by decide)
    have hrel2 : (((".thumbnail_cache/booth" ++ e : String)) == "") = false := by
      rw [beq_eq_false_iff_ne]
      exact append_ne_empty _ _ (by decide)
    simp only [processItem, hpid, hfetch1, hfetch2, he, hm, Option.map_some',
      hrel, hrel2, eq_self_iff_true, if_true, Bool.false_eq_true, if_false]
      at hlook ⊢
    rw [hlook]
    refine ⟨?_, trivial, rfl⟩
    simp only [inheritPT_some, inheritPA_some, Option.map_some', Option.getD_some,
      inheritPT_fixed, inheritPA_fixed]

theorem processItem_path (root : String) (net : Network) (now ttl : Int)
    (force : Bool) (prev : List Rec) (n : String) (f : ItemFS) :
    (processItem root net now ttl force prev n f).record.path =
      some (root ++ "/" ++ n) := by
  cases hpid : extract_product_id n <;> simp [processItem, hpid]

theorem mem_dirNames (es : List RootEntry) (n : String) (f : ItemFS)
    (h : RootEntry.dir n f ∈ es) : n ∈ dirNames es := by
  unfold dirNames
  rw [List.mem_filterMap]
  exact ⟨_, h, rfl⟩

/-- With pairwise-distinct directory names, the prior-index lookup over
    a scan's output finds exactly this directory's record. -/
theorem prevMapGet_scan_items (root : String) (net : Network) (t1 ttl : Int)
    (prev1 : List Rec) (entries : List RootEntry)
    (hnodup : (dirNames entries).Nodup)
    (name : String) (fs : ItemFS)
    (hmem : RootEntry.dir name fs ∈ entries) :
    prevMapGet
      (entries.filterMap (fun e =>
        match e with
        | RootEntry.dir n f => some (processItem root net t1 ttl false prev1 n f).record
        | RootEntry.file _ => none))
      (root ++ "/" ++ name) =
    some (processItem root net t1 ttl false prev1 name fs).record := by
  induction entries with
  | nil => cases hmem
  | cons a rest ih =>
    rw [List.mem_cons] at hmem
    have hp : ((root ++ "/" ++ name) == "") = false :=
      beq_eq_false_iff_ne.mpr (path_ne_empty root name)
    cases a with
    | file n2 =>
      rcases hmem with heq | hmem2
      · cases heq
      · rw [List.filterMap_cons]
        dsimp only
        exact ih (by simpa [dirNames, List.filterMap_cons] using hnodup) hmem2
    | dir n2 f2 =>
      have hnodup2 : (dirNames rest).Nodup ∧ n2 ∉ dirNames rest := by
        have hd : dirNames (RootEntry.dir n2 f2 :: rest) = n2 :: dirNames rest := by
          simp [dirNames, List.filterMap_cons]
        rw [hd, List.nodup_cons] at hnodup
        exact ⟨hnodup.2, hnodup.1⟩
      rw [List.filterMap_cons]
      dsimp only
      rcases hmem with heq | hmem2
      · injection heq with h1 h2
        subst h1
        subst h2
        unfold prevMapGet
        rw [if_neg (by simp [hp])]
        rw [List.filter_cons]
        rw [if_pos (by rw [processItem_path]; simp)]
        have hrestnil : (List.filter
            (fun it => it.path == some (root ++ "/" ++ name))
            (rest.filterMap (fun e =>
              match e with
              | RootEntry.dir n f =>
                some (processItem root net t1 ttl false prev1 n f).record
              | RootEntry.file _ => none))) = [] := by
          rw [List.filter_eq_nil_iff]
          intro y hy
          rw [List.mem_filterMap] at hy
          obtain ⟨ey, hey, hrec⟩ := hy
          cases ey with
          | file n3 => simp at hrec
          | dir n3 f3 =>
            injection hrec with hrec
            subst hrec
            intro hcontra
            have hc := eq_of_beq hcontra
            rw [processItem_path] at hc
            injection hc with hc
            have := path_append_inj root n3 name hc
            subst this
            exact hnodup2.2 (mem_dirNames rest _ _ hey)
        rw [hrestnil]
        rfl
      · have hne : n2 ≠ name := by
          intro he
          subst he
          exact hnodup2.2 (mem_dirNames rest _ _ hmem2)
        have hhead : ((processItem root net t1 ttl false prev1 n2 f2).record.path ==
            some (root ++ "/" ++ name)) = false := by
          rw [processItem_path, beq_eq_false_iff_ne]
          intro hcontra
          injection hcontra with hc
          exact hne (path_append_inj root n2 name hc)
        unfold prevMapGet
        rw [if_neg (by simp [hp])]
        rw [List.filter_cons, if_neg (by simp [hhead])]
        have hrec := ih hnodup2.1 hmem2
        unfold prevMapGet at hrec
        rw [if_neg (by simp [hp])] at hrec
        exact hrec

theorem filterMap_congr_mem {α β : Type} (l : List α) (f g : α → Option β)
    (h : ∀ a ∈ l, f a = g a) : l.filterMap f = l.filterMap g := by
  induction l with
  | nil => rfl
  | cons a rest ih =>
    rw [List.filterMap_cons, List.filterMap_cons, h a (by simp)]
    rw [ih (fun x hx => h x (by simp [hx]))]

theorem processItem_fresh_fslog (root : String) (net : Network) (t ttl : Int)
    (prev : List Rec) (name : String) (fs : ItemFS)
    (hfr : ∀ pid, extract_product_id name = some pid →
      cacheFreshB fs.cache ttl t = true) :
    (processItem root net t ttl false prev name fs).fs = fs ∧
    (processItem root net t ttl false prev name fs).log = [] := by
  cases hpid : extract_product_id name with
  | none =>
    simp only [processItem, hpid]
    exact ⟨trivial, trivial⟩
  | some pid =>
    have h := hfr pid hpid
    obtain ⟨hdir, hex, hfrs⟩ := cacheFreshB_parts _ _ _ h
    obtain ⟨m, hm⟩ := cacheFreshB_meta _ _ _ h
    have hfetch := fetch_fastPath name fs.cache net t ttl false pid hpid hdir hex hfrs
    simp only [processItem, hpid, hfetch, hm]
    exact ⟨trivial, rfl⟩

theorem scan_entries_fresh (root : String) (w : RootFS) (net : Network)
    (t ttl : Int)
    (hfr : ∀ n f, RootEntry.dir n f ∈ w.entries →
      ∀ pid, extract_product_id n = some pid →
      cacheFreshB f.cache ttl t = true) :
    (scan_dl_folder root w net t ttl false true).fs.entries = w.entries := by
  unfold scan_dl_folder
  dsimp only
  rw [List.map_map]
  have h : ∀ e ∈ w.entries,
      ((fun x => EntryStep.entry x) ∘
        stepEntry root net t ttl false (if true = true then indexItems w.metaFile else [])) e =
      id e := by
    intro e he
    cases e with
    | file n => rfl
    | dir n f =>
      show RootEntry.dir n (processItem root net t ttl false _ n f).fs = RootEntry.dir n f
      rw [(processItem_fresh_fslog root net t ttl _ n f (hfr n f he)).1]
  rw [List.map_congr_left h, List.map_id]

theorem scan_log_fresh (root : String) (w : RootFS) (net : Network)
    (t ttl : Int)
    (hfr : ∀ n f, RootEntry.dir n f ∈ w.entries →
      ∀ pid, extract_product_id n = some pid →
      cacheFreshB f.cache ttl t = true) :
    (scan_dl_folder root w net t ttl false true).log = [Eff.fsWriteIndex] := by
  unfold scan_dl_folder
  dsimp only
  rw [List.map_map]
  have h : ∀ e ∈ w.entries,
      ((fun x => EntryStep.log x) ∘
        stepEntry root net t ttl false (if true = true then indexItems w.metaFile else [])) e =
      (fun _ => ([] : List Eff)) e := by
    intro e he
    cases e with
    | file n => rfl
    | dir n f =>
      show (processItem root net t ttl false _ n f).log = []
      exact (processItem_fresh_fslog root net t ttl _ n f (hfr n f he)).2
  rw [List.map_congr_left h]
  simp

theorem scan_metaFile_eq (root : String) (w : RootFS) (net : Network)
    (t ttl : Int) (force diff : Bool) :
    (scan_dl_folder root w net t ttl force diff).fs.metaFile =
      .items (scan_dl_folder root w net t ttl force diff).items := rfl

/-- C7: two consecutive scans of a root whose item-folder contents are
    the same at both scan starts (the first scan provably changes no
    item folder under the freshness hypothesis), with every product-id
    item's cache fresh at the second scan time and distinct directory
    names, persist identical indexes — the second scan's items, and its
    whole resulting root state, equal the first's — and the second scan
    performs zero network requests. -/
theorem claim_c7_scan_idempotent (root : String) (w : RootFS) (net : Network)
    (t1 t2 ttl : Int)
    (hnodup : (dirNames w.entries).Nodup)
    (hle : t1 ≤ t2)
    (hfresh : ∀ n f, RootEntry.dir n f ∈ w.entries →
      (extract_product_id n).isSome = true →
      cacheFreshB f.cache ttl t2 = true) :
    (scan_dl_folder root (scan_dl_folder root w net t1 ttl false true).fs net
        t2 ttl false true).items =
      (scan_dl_folder root w net t1 ttl false true).items ∧
    (scan_dl_folder root (scan_dl_folder root w net t1 ttl false true).fs net
        t2 ttl false true).fs =
      (scan_dl_folder root w net t1 ttl false true).fs ∧
    (scan_dl_folder root (scan_dl_folder root w net t1 ttl false true).fs net
        t2 ttl false true).log.filter Eff.isNet = [] := by
  have hfr2 : ∀ n f, RootEntry.dir n f ∈ w.entries →
      ∀ pid, extract_product_id n = some pid →
      cacheFreshB f.cache ttl t2 = true := by
    intro n f hm pid hpid
    exact hfresh n f hm (by rw [hpid]; rfl)
  have hfr1 : ∀ n f, RootEntry.dir n f ∈ w.entries →
      ∀ pid, extract_product_id n = some pid →
      cacheFreshB f.cache ttl t1 = true := by
    intro n f hm pid hpid
    exact cacheFreshB_mono _ _ _ _ hle (hfr2 n f hm pid hpid)
  have hent1 : (scan_dl_folder root w net t1 ttl false true).fs.entries = w.entries :=
    scan_entries_fresh root w net t1 ttl hfr1
  have hitems1 : (scan_dl_folder root w net t1 ttl false true).items =
      w.entries.filterMap (fun e =>
        match e with
        | RootEntry.dir n f =>
          some (processItem root net t1 ttl false (indexItems w.metaFile) n f).record
        | RootEntry.file _ => none) := by
    rw [scan_items_eq]
    simp
  have hfs1 : (scan_dl_folder root w net t1 ttl false true).fs =
      ⟨w.entries, .items (scan_dl_folder root w net t1 ttl false true).items⟩ := by
    have hself : (scan_dl_folder root w net t1 ttl false true).fs =
        ⟨(scan_dl_folder root w net t1 ttl false true).fs.entries,
         (scan_dl_folder root w net t1 ttl false true).fs.metaFile⟩ := rfl
    rw [hself, hent1]
    rw [scan_metaFile_eq]
  rw [hfs1]
  have hitems2 :
      (scan_dl_folder root
        (⟨w.entries, .items (scan_dl_folder root w net t1 ttl false true).items⟩ :
          RootFS) net t2 ttl false true).items =
      (scan_dl_folder root w net t1 ttl false true).items := by
    rw [scan_items_eq]
    simp only [eq_self_iff_true, if_true, indexItems]
    rw [hitems1]
    apply filterMap_congr_mem
    intro e he
    cases e with
    | file n => rfl
    | dir n f =>
      dsimp only
      have hlook := prevMapGet_scan_items root net t1 ttl (indexItems w.metaFile)
        w.entries hnodup n f he
      have hsec := (processItem_second root net t1 t2 ttl (indexItems w.metaFile)
        (w.entries.filterMap (fun e =>
          match e with
          | RootEntry.dir n2 f2 =>
            some (processItem root net t1 ttl false (indexItems w.metaFile) n2 f2).record
          | RootEntry.file _ => none)) n f
        (fun pid hpid => ⟨hfr1 n f he pid hpid, hfr2 n f he pid hpid⟩) hlook).1
      rw [hsec]
  refine ⟨hitems2, ?_, ?_⟩
  · have hent2 :
        (scan_dl_folder root
          (⟨w.entries, .items (scan_dl_folder root w net t1 ttl false true).items⟩ :
            RootFS) net t2 ttl false true).fs.entries = w.entries :=
      scan_entries_fresh root _ net t2 ttl (fun n f hm pid hpid => hfr2 n f hm pid hpid)
    have hself2 :
        (scan_dl_folder root
          (⟨w.entries, .items (scan_dl_folder root w net t1 ttl false true).items⟩ :
            RootFS) net t2 ttl false true).fs =
        ⟨(scan_dl_folder root
            (⟨w.entries, .items (scan_dl_folder root w net t1 ttl false true).items⟩ :
              RootFS) net t2 ttl false true).fs.entries,
         (scan_dl_folder root
            (⟨w.entries, .items (scan_dl_folder root w net t1 ttl false true).items⟩ :
              RootFS) net t2 ttl false true).fs.metaFile⟩ := rfl
    rw [hself2, hent2, scan_metaFile_eq, hitems2]
  · rw [scan_log_fresh root
      (⟨w.entries, .items (scan_dl_folder root w net t1 ttl false true).items⟩ :
        RootFS) net t2 ttl
      (fun n f hm pid hpid => hfr2 n f hm pid hpid)]
    rfl

theorem claim_c7_witness :
    (scan_dl_folder "r" (scan_dl_folder "r" wC7 netFail 10 3600 false true).fs netFail
        20 3600 false true).items =
      (scan_dl_folder "r" wC7 netFail 10 3600 false true).items ∧
    (scan_dl_folder "r" (scan_dl_folder "r" wC7 netFail 10 3600 false true).fs netFail
        20 3600 false true).log.filter Eff.isNet = [] := by
  have h := claim_c7_scan_idempotent "r" wC7 netFail 10 20 3600 (by decide) (by decide)
    (by
      intro n f hmem hpid
      simp only [wC7, List.mem_cons] at hmem
      rcases hmem with h1 | h1
      · injection h1 with h2 h3
        subst h2
        subst h3
        decide
      · rcases h1 with h1 | h1
        · cases h1
        · simp at h1)
  exact ⟨h.1, h.2.2⟩

theorem claim_c5_witness :
    ∃ pid, pid ≠ "" ∧ pid.data.all Char.isDigit = true ∧
      "https://booth.pm/ja/items/999" = build_public_item_url pid :=
  claim_c5_url_normalization.2.2.2.1 "/ja/items/999" "https://booth.pm/ja/items/999"
    (by decide)
